import Mathlib

/-!
# new-api: unified task layer

A shallow embedding of the task normaliser (`controller/unified_task.go`), the
callback dispatcher and its URL guard (`service/task_callback.go`), followed by
the properties proved about them.

Go strings are embedded as Lean `String`s (sequences of code points, i.e. valid
UTF-8 text); `int` and `int64` values are embedded as `Int`.
Library routines of the Go standard library that the code calls are either
modelled below on the inputs the code gives them, or taken as parameters.
-/

namespace NewApi

/-! ## Go standard library: strings -/

/-- Go `strings.HasPrefix`. -/
def HasPrefix (s p : String) : Bool :=
  p.data.isPrefixOf s.data

/-- Splitting a run of characters at every occurrence of one separator character;
an input without the separator yields the single field holding the input. -/
def splitAt1 (sep : Char) : List Char → List (List Char)
  | [] => [[]]
  | c :: cs =>
    if c = sep then [] :: splitAt1 sep cs
    else
      match splitAt1 sep cs with
      | [] => [[c]]
      | p :: ps => (c :: p) :: ps

/-- Go `strings.Split(s, sep)` for a separator of one character. -/
def Split (s : String) (sep : Char) : List String :=
  (splitAt1 sep s.data).map String.mk

/-- Go `unicode.SimpleFold` on code points, tabulated for every orbit that has an
ASCII member: the letter pairs, and the two three-element orbits
`K, k, U+212A` and `S, s, U+017F`. Orbits without an ASCII member are left as
the identity; `EqualFold` against an ASCII literal never walks them. -/
def SimpleFold (r : Nat) : Nat :=
  if r = 0x4B then 0x6B
  else if r = 0x6B then 0x212A
  else if r = 0x212A then 0x4B
  else if r = 0x53 then 0x73
  else if r = 0x73 then 0x17F
  else if r = 0x17F then 0x53
  else if 0x41 ≤ r ∧ r ≤ 0x5A then r + 0x20
  else if 0x61 ≤ r ∧ r ≤ 0x7A then r - 0x20
  else r

/-- Two code points that `strings.EqualFold` treats as equal: they lie on one
`SimpleFold` orbit (an orbit has at most three members in the table above). -/
def foldEqRune (a b : Nat) : Bool :=
  a = b || SimpleFold a = b || SimpleFold (SimpleFold a) = b

/-- The rune loop of `strings.EqualFold`. -/
def equalFoldRunes : List Char → List Char → Bool
  | [], [] => true
  | a :: as, b :: bs => foldEqRune a.toNat b.toNat && equalFoldRunes as bs
  | _, _ => false

/-- Go `strings.EqualFold`: equality of two strings under Unicode simple case
folding. -/
def EqualFold (s t : String) : Bool :=
  equalFoldRunes s.data t.data

/-! ## Go standard library: `fmt.Sscanf(str, "%d", &n)` -/

/-- The white space of package `fmt` (its `space` table). -/
def isSpace (c : Char) : Bool :=
  let r := c.toNat
  (0x09 ≤ r && r ≤ 0x0D) || r = 0x20 || r = 0x85 || r = 0xA0 || r = 0x1680
    || (0x2000 ≤ r && r ≤ 0x200A) || r = 0x2028 || r = 0x2029 || r = 0x202F
    || r = 0x205F || r = 0x3000

/-- The scanner method `SkipSpace` under `Sscanf`: leading white space is dropped, a
newline is an error (`none`). -/
def SkipSpace : List Char → Option (List Char)
  | [] => some []
  | c :: cs =>
    if c = '\n' then none
    else if isSpace c then SkipSpace cs
    else some (c :: cs)

/-- The characters `scanNumber` accepts for the verb `%d`: the decimal digits
`"0123456789"` (an underscore is accepted only for `%v`). -/
def isScanDigit (c : Char) : Bool :=
  c.isDigit

/-- Value of a run of scanned characters read by `strconv.ParseUint` in base 10,
most significant first; a character that is not a decimal digit is a syntax error. -/
def parseDecimal : List Char → Nat → Option Nat
  | [], acc => some acc
  | c :: cs, acc =>
    if c.isDigit then parseDecimal cs (10 * acc + (c.toNat - 48)) else none

/-- Go `strconv.ParseInt(tok, 10, 64)` on a token made of an optional sign and
a non-empty run of scanned characters: `none` on a syntax or range error. -/
def ParseInt64 (neg : Bool) (digits : List Char) : Option Int :=
  match parseDecimal digits 0 with
  | none => none
  | some un =>
    if neg then (if un ≤ 2 ^ 63 then some (-(un : Int)) else none)
    else (if un < 2 ^ 63 then some (un : Int) else none)

/-- Go `fmt.Sscanf(str, "%d", &n)`: `some n` when the scan reports no error, `none`
otherwise. Leading white space is skipped, an optional sign is read, then the
longest run of decimal digits (at least one); the scan stops at the first other
character, and text after the number is left unread and is not an error. -/
def Sscanf_d (str : String) : Option Int :=
  match SkipSpace str.data with
  | none => none
  | some [] => none
  | some (c :: cs) =>
    let neg := c = '-'
    let body := if c = '+' ∨ c = '-' then cs else c :: cs
    let tok := body.takeWhile isScanDigit
    if tok.isEmpty then none else ParseInt64 neg tok

/-! ## `service/task_callback.go`: the callback URL guard -/

/-- What `isValidCallbackURL` observes of a parsed `*url.URL`: its `Scheme` field and
the value of its `Hostname()` method. -/
structure URL where
  Scheme : String
  Hostname : String
deriving DecidableEq, Repr

/-- The denylist literal of `isValidCallbackURL`. -/
def blacklist : List String :=
  ["localhost", "127.0.0.1", "0.0.0.0", "::1"]

/-- The function `isValidCallbackURL` of `service/task_callback.go`. The parser
`urlParse` stands for Go `net/url.Parse` (`none` is a parse error). -/
def isValidCallbackURL (urlParse : String → Option URL) (callbackURL : String) : Bool :=
  match urlParse callbackURL with
  | none => false
  | some parsedURL =>
    if parsedURL.Scheme ≠ "http" ∧ parsedURL.Scheme ≠ "https" then false
    else
      let host := parsedURL.Hostname
      if host = "" then false
      else if blacklist.any (fun blocked => EqualFold host blocked) then false
      else if HasPrefix host "192.168." || HasPrefix host "10." then false
      else if HasPrefix host "172." then
        let parts := Split host '.'
        if 2 ≤ parts.length then
          match Sscanf_d (parts.getD 1 "") with
          | some second => if 16 ≤ second ∧ second ≤ 31 then false else true
          | none => true
        else true
      else true

/-! ## A sample of `net/url.Parse`

The guard is stated for an arbitrary parser. The examples below need one concrete
parser; `urlParseSample` follows `net/url.Parse` and `(*URL).Hostname` on URLs of the
shape `scheme://host[:port][/path][?query][#fragment]` whose host is made of letters,
digits, `-`, `.`, `_`, `~` and non-ASCII characters and whose path and fragment have
no `%` escape, and on URLs without an authority. Any other input (user info, bracketed
address literals, percent escapes) lies outside the sample and is reported as a
parse failure. -/

/-- The loop of `getScheme` in `net/url`: `acc` holds the characters read so far, in
reverse. `none` is the error `missing protocol scheme`. -/
def getSchemeFrom (rawURL : List Char) : List Char → List Char → Option (List Char × List Char)
  | _, [] => some ([], rawURL)
  | acc, c :: cs =>
    if c.isAlpha then getSchemeFrom rawURL (c :: acc) cs
    else if c.isDigit || c = '+' || c = '-' || c = '.' then
      (if acc.isEmpty then some ([], rawURL) else getSchemeFrom rawURL (c :: acc) cs)
    else if c = ':' then
      (if acc.isEmpty then none else some (acc.reverse, cs))
    else some ([], rawURL)

/-- The function `getScheme` of `net/url`: the scheme and the rest of the URL. -/
def getScheme (rawURL : List Char) : Option (List Char × List Char) :=
  getSchemeFrom rawURL [] rawURL

/-- Host characters inside the sample: unreserved ASCII, the port colon, and
non-ASCII characters. -/
def sampleHostChar (c : Char) : Bool :=
  c.isAlphanum || c = '-' || c = '.' || c = '_' || c = '~' || c = ':' || 0x80 ≤ c.toNat

/-- The host name of an authority inside the sample: the text before the last colon
when the text after it is a (possibly empty) decimal port, the whole authority when
there is no colon, a parse error when the port is not decimal. -/
def sampleHostname (authority : List Char) : Option (List Char) :=
  if authority.contains ':' then
    let port := (authority.reverse.takeWhile (fun c => c ≠ ':')).reverse
    let host := ((authority.reverse.dropWhile (fun c => c ≠ ':')).drop 1).reverse
    if port.all Char.isDigit then some host else none
  else some authority

/-- The sample of `net/url.Parse` described above. -/
def urlParseSample (rawURL : String) : Option URL :=
  let u := rawURL.data.takeWhile (fun c => c ≠ '#')
  let frag := (rawURL.data.dropWhile (fun c => c ≠ '#')).drop 1
  if frag.contains '%' then none
  else if u.any (fun c => c.toNat < 0x20 || c.toNat = 0x7F) then none
  else if u = ['*'] then some ⟨"", ""⟩
  else
    match getScheme u with
    | none => none
    | some (scheme, rest) =>
      let scheme := String.mk (scheme.map Char.toLower)
      let rest := rest.takeWhile (fun c => c ≠ '?')
      if rest.contains '%' then none
      else
        match rest with
        | '/' :: '/' :: tail =>
          if scheme ≠ "" ∨ tail.head? ≠ some '/' then
            let authority := tail.takeWhile (fun c => c ≠ '/')
            if authority.all sampleHostChar then
              match sampleHostname authority with
              | none => none
              | some host => some ⟨scheme, String.mk host⟩
            else none
          else some ⟨scheme, ""⟩
        | '/' :: _ => some ⟨scheme, ""⟩
        | _ =>
          if scheme ≠ "" then some ⟨scheme, ""⟩
          else if (rest.takeWhile (fun c => c ≠ '/')).contains ':' then none
          else some ⟨scheme, ""⟩

/-! ## Package `model`: the task entity -/

/-- Modelled from the spec: the `TaskStatus` constants of package `model`, which is
not among the source files modelled here. `TaskStatus` is a string type (`mapStatusToState` converts it with
`string(status)`); spec §3 names the six statuses but not their string values, so the
values are a parameter of everything below. -/
structure StatusNames where
  TaskStatusNotStart : String
  TaskStatusSubmitted : String
  TaskStatusQueued : String
  TaskStatusInProgress : String
  TaskStatusSuccess : String
  TaskStatusFailure : String
deriving DecidableEq, Repr

/-- The six status constants are pairwise different strings (Go rejects a `switch` that
lists one constant twice, and `mapTaskStatusToState` lists all six). -/
def StatusNames.Distinct (K : StatusNames) : Prop :=
  [K.TaskStatusNotStart, K.TaskStatusSubmitted, K.TaskStatusQueued,
    K.TaskStatusInProgress, K.TaskStatusSuccess, K.TaskStatusFailure].Nodup

instance (K : StatusNames) : Decidable K.Distinct := by
  unfold StatusNames.Distinct; infer_instance

/-- The status strings the upstream project declares in `model/task.go`; used to
instantiate `StatusNames` in examples. -/
def upstreamStatus : StatusNames :=
  { TaskStatusNotStart := "NOT_START"
    TaskStatusSubmitted := "SUBMITTED"
    TaskStatusQueued := "QUEUED"
    TaskStatusInProgress := "IN_PROGRESS"
    TaskStatusSuccess := "SUCCESS"
    TaskStatusFailure := "FAILURE" }

/-- Modelled from the spec: the `Properties` of a task (spec §3), declared in package
`model`, whose source is not among the files modelled here. -/
structure Properties where
  OriginModelName : String
  UpstreamModelName : String
  Input : String
deriving DecidableEq, Repr

/-- Modelled from the spec: `model.Task` (spec §3), declared in package `model`, which
is not among the source files modelled here: the fields that the controller and the
service read or patch. `Data` holds
the serialised upstream payload; the timestamps and the retry counter are Go
integers. -/
structure Task where
  ID : Int
  TaskID : String
  Status : String
  Progress : String
  Data : String
  FailReason : String
  CallBackUrl : String
  CallbackStatus : String
  CallbackRetryCount : Int
  CallbackTime : Int
  CreatedAt : Int
  FinishTime : Int
  Properties : Properties
deriving DecidableEq, Repr

/-! ## JSON values held in `map[string]interface{}` -/

/-- A value stored in a Go `map[string]interface{}` result: what `encoding/json`
decodes, plus the string slice the fallback rule stores. Numbers keep their
literal text. -/
inductive JsonValue where
  | null
  | bool (b : Bool)
  | number (literal : String)
  | string (s : String)
  | array (items : List JsonValue)
  | object (fields : List (String × JsonValue))

/-- A Go `map[string]interface{}`: its key/value pairs. The nil map and the empty map
are both the empty list; `len` is the length of the list. -/
abbrev JsonMap := List (String × JsonValue)

/-! ## `dto/unified_task.go` -/

/-- The struct `TaskErrorInfo` of `dto/unified_task.go`. -/
structure TaskErrorInfo where
  Code : String
  Message : String
deriving DecidableEq, Repr

/-- The struct `UnifiedTaskDetailData` of `dto/unified_task.go`. A nil `Result` map and
a nil `Error` pointer are `none`. -/
structure UnifiedTaskDetailData where
  TaskId : String
  Model : String
  State : String
  Progress : String
  Result : Option JsonMap
  Error : Option TaskErrorInfo
  CreatedAt : Int
  CompletedAt : Int

/-- The struct `TaskCallbackError` of `dto/unified_task.go`. -/
structure TaskCallbackError where
  Code : String
  Message : String
deriving DecidableEq, Repr

/-- The struct `TaskCallbackPayload` of `dto/unified_task.go`. -/
structure TaskCallbackPayload where
  TaskId : String
  Model : String
  State : String
  Progress : String
  Result : Option JsonMap
  ResultJson : String
  Error : Option TaskCallbackError
  Param : String
  FailCode : String
  FailMsg : String
  CostTime : Int
  CreatedAt : Int
  CompletedAt : Int

/-! ## `controller/unified_task.go`: the normaliser -/

/-- The function `mapTaskStatusToState` of `controller/unified_task.go`. -/
def mapTaskStatusToState (K : StatusNames) (status : String) : String :=
  if status = K.TaskStatusNotStart ∨ status = K.TaskStatusSubmitted
      ∨ status = K.TaskStatusQueued then "queued"
  else if status = K.TaskStatusInProgress then "processing"
  else if status = K.TaskStatusSuccess then "succeeded"
  else if status = K.TaskStatusFailure then "failed"
  else "unknown"

/-- The Go test `m == nil || len(m) == 0` on a result map. -/
def resultEmpty : Option JsonMap → Bool
  | none => true
  | some m => m.length = 0

/-- The function `convertTaskToUnifiedFormat` of `controller/unified_task.go`.
The decoder `Unmarshal` stands for `common.Unmarshal(task.Data, &result)` into a fresh
`map[string]interface{}` (package `common` is not among the source files modelled here): `none` is a decoding
error, `some m` the decoded map. -/
def convertTaskToUnifiedFormat (K : StatusNames) (Unmarshal : String → Option JsonMap)
    (task : Task) : UnifiedTaskDetailData :=
  let data : UnifiedTaskDetailData :=
    { TaskId := task.TaskID
      Model := task.Properties.OriginModelName
      State := mapTaskStatusToState K task.Status
      Progress := task.Progress
      Result := none
      Error := none
      CreatedAt := task.CreatedAt
      CompletedAt := 0 }
  let data :=
    if data.Model = "" then { data with Model := task.Properties.UpstreamModelName }
    else data
  if task.Status = K.TaskStatusSuccess then
    let data := { data with CompletedAt := task.FinishTime }
    let data :=
      match Unmarshal task.Data with
      | some result => if 0 < result.length then { data with Result := some result } else data
      | none => data
    if resultEmpty data.Result ∧ task.FailReason ≠ "" then
      if HasPrefix task.FailReason "http" then
        { data with
          Result := some [("resultUrls", JsonValue.array [JsonValue.string task.FailReason])] }
      else data
    else data
  else if task.Status = K.TaskStatusFailure then
    { data with
      CompletedAt := task.FinishTime
      Error := some { Code := "task_failed", Message := task.FailReason } }
  else data

/-! ## `service/task_callback.go`: the dispatcher -/

/-- The constant `CallbackStatusPending`. -/
def CallbackStatusPending : String := "PENDING"

/-- The constant `CallbackStatusSuccess`. -/
def CallbackStatusSuccess : String := "SUCCESS"

/-- The constant `CallbackStatusFailed`. -/
def CallbackStatusFailed : String := "FAILED"

/-- The function `mapStatusToState` of `service/task_callback.go`. -/
def mapStatusToState (K : StatusNames) (status : String) : String :=
  if status = K.TaskStatusSuccess then "succeeded"
  else if status = K.TaskStatusFailure then "failed"
  else if status = K.TaskStatusInProgress then "processing"
  else if status = K.TaskStatusQueued ∨ status = K.TaskStatusSubmitted then "queued"
  else status

/-- Go `int64` arithmetic: the value of an integer result after wrap-around. -/
def wrapInt64 (x : Int) : Int :=
  (x + 2 ^ 63) % 2 ^ 64 - 2 ^ 63

/-- The function `buildCallbackPayload` of `service/task_callback.go`, with one repair.
As written the source does not compile: it declares a local string `model` (the model
name), which hides the package `model` for the rest of the body, so the later
`model.TaskStatusSuccess` and `model.TaskStatusFailure` select a field of a string.
This definition is the body with that name clash undone: the two selectors are read
as the status constants of the package, as everywhere else in the file. It is what
`TriggerTaskCallback` hands to `sendCallback`; a theorem about the payload holds of
this repaired body, not of the source as written. `Unmarshal` is as in
`convertTaskToUnifiedFormat`;
`Marshal` stands for `json.Marshal` of a result map, `none` being a serialisation
error. -/
def buildCallbackPayload (K : StatusNames) (Unmarshal : String → Option JsonMap)
    (Marshal : JsonMap → Option String) (task : Task) : TaskCallbackPayload :=
  let state := mapStatusToState K task.Status
  let model :=
    if task.Properties.OriginModelName = "" then task.Properties.UpstreamModelName
    else task.Properties.OriginModelName
  let payload : TaskCallbackPayload :=
    { TaskId := task.TaskID
      Model := model
      State := state
      Progress := task.Progress
      Result := none
      ResultJson := ""
      Error := none
      Param := ""
      FailCode := ""
      FailMsg := ""
      CostTime := 0
      CreatedAt := task.CreatedAt
      CompletedAt := 0 }
  let payload :=
    if task.Status = K.TaskStatusSuccess then
      let payload :=
        { payload with
          CompletedAt := task.FinishTime
          CostTime := wrapInt64 (task.FinishTime - task.CreatedAt) }
      let payload :=
        match Unmarshal task.Data with
        | some result =>
          if 0 < result.length then
            let payload := { payload with Result := some result }
            match Marshal result with
            | some resultBytes => { payload with ResultJson := resultBytes }
            | none => payload
          else payload
        | none => payload
      if resultEmpty payload.Result ∧ task.FailReason ≠ "" then
        if HasPrefix task.FailReason "http" then
          let result : JsonMap :=
            [("resultUrls", JsonValue.array [JsonValue.string task.FailReason])]
          let payload := { payload with Result := some result }
          match Marshal result with
          | some resultBytes => { payload with ResultJson := resultBytes }
          | none => payload
        else payload
      else payload
    else if task.Status = K.TaskStatusFailure then
      { payload with
        CompletedAt := task.FinishTime
        CostTime := wrapInt64 (task.FinishTime - task.CreatedAt)
        Error := some { Code := "task_failed", Message := task.FailReason }
        FailCode := "task_failed"
        FailMsg := task.FailReason }
    else payload
  if task.Properties.Input ≠ "" then { payload with Param := task.Properties.Input }
  else payload

/-- Everything outside the modelled source files that one run of `TriggerTaskCallback`
depends on.
`respond i url payload` is what the `i`-th call of `sendCallback` (counted from 0)
gets back from the network: `some code` is the HTTP status of the response, `none`
any failure before a response is read (serialisation, request construction,
transport error, timeout). `now` is the reading of `time.Now().Unix()` at the
one place where a run reads the clock. -/
structure Env where
  K : StatusNames
  urlParse : String → Option URL
  Unmarshal : String → Option JsonMap
  Marshal : JsonMap → Option String
  respond : Nat → String → TaskCallbackPayload → Option Int
  now : Int

/-- The function `sendCallback` of `service/task_callback.go`, as the test `err == nil` on
its `attempt`-th call: a response arrived and its status lies in `[200, 300)`. -/
def sendCallback (env : Env) (attempt : Nat) (callbackURL : String)
    (payload : TaskCallbackPayload) : Bool :=
  match env.respond attempt callbackURL payload with
  | none => false
  | some statusCode => if statusCode < 200 ∨ statusCode ≥ 300 then false else true

/-- The observable state of a dispatch: `row` is the store row with `id = task.ID`
(its callback fields are what the `Updates` calls write; a store write always takes
effect), `attempts` counts the calls of `sendCallback`, `sleeps` lists the arguments
of `time.Sleep` in seconds, in order. -/
structure World where
  row : Task
  attempts : Nat
  sleeps : List Nat
deriving DecidableEq, Repr

/-- The retry loop of `TriggerTaskCallback` (`for i := 0; i < maxRetries; i++`), from
iteration `i` on, together with the code after the loop. -/
def retryLoop (env : Env) (task : Task) (payload : TaskCallbackPayload)
    (maxRetries : Nat) (i : Nat) (w : World) : World :=
  if i < maxRetries then
    let w := { w with attempts := w.attempts + 1 }
    if sendCallback env i task.CallBackUrl payload then
      { w with
        row := { w.row with
          CallbackStatus := CallbackStatusSuccess
          CallbackTime := env.now
          CallbackRetryCount := (i : Int) + 1 } }
    else
      let w := { w with row := { w.row with CallbackRetryCount := (i : Int) + 1 } }
      let w :=
        if i < maxRetries - 1 then { w with sleeps := w.sleeps ++ [1 <<< i] }
        else w
      retryLoop env task payload maxRetries (i + 1) w
  else
    { w with
      row := { w.row with
        CallbackStatus := CallbackStatusFailed
        CallbackTime := env.now } }
termination_by maxRetries - i

/-- The function `TriggerTaskCallback` of `service/task_callback.go`, as a transformer
of the observable state. -/
def TriggerTaskCallback (env : Env) (task : Task) (w : World) : World :=
  if task.CallBackUrl = "" then w
  else if ¬ isValidCallbackURL env.urlParse task.CallBackUrl then w
  else
    let payload := buildCallbackPayload env.K env.Unmarshal env.Marshal task
    let maxRetries := 3
    retryLoop env task payload maxRetries 0 w

/-! ## `service/model_mapping.go`: the routing table -/

/-- Modelled from the spec: the constants of package `constant` that the routing table
names (channel types, task actions, the Suno platform). The package is not among the
source files modelled here and the spec does not give the values, so they are a
parameter of the table. -/
structure Constants where
  ChannelTypeSora : Int
  ChannelTypeKling : Int
  ChannelTypeAli : Int
  ChannelTypeGemini : Int
  ChannelTypeMiniMax : Int
  ChannelTypeVidu : Int
  ChannelTypeDoubaoVideo : Int
  ChannelTypeJimeng : Int
  ChannelTypeVertexAi : Int
  TaskActionGenerate : String
  TaskActionTextGenerate : String
  SunoActionMusic : String
  SunoActionLyrics : String
  TaskPlatformSuno : String
deriving DecidableEq, Repr

/-- The struct `ModelMappingConfig` of `service/model_mapping.go`. -/
structure ModelMappingConfig where
  Platform : String
  Action : String
  ChannelType : Int
deriving DecidableEq, Repr

/-- A Go `map[string]ModelMappingConfig` as the list of its key/value pairs. -/
abbrev MappingTable := List (String × ModelMappingConfig)

/-- The variable `modelMappingTable` of `service/model_mapping.go`: the entries of the map
literal in source order; a field the literal does not give has its zero value. -/
def modelMappingTable (C : Constants) : MappingTable :=
  [ ("sora-2-pro-text-to-video",
      { Platform := "", Action := C.TaskActionGenerate, ChannelType := C.ChannelTypeSora }),
    ("sora-2-text-to-video",
      { Platform := "", Action := C.TaskActionGenerate, ChannelType := C.ChannelTypeSora }),
    ("kling-v1",
      { Platform := "", Action := C.TaskActionTextGenerate, ChannelType := C.ChannelTypeKling }),
    ("kling-v1-6",
      { Platform := "", Action := C.TaskActionTextGenerate, ChannelType := C.ChannelTypeKling }),
    ("kling-v2-master",
      { Platform := "", Action := C.TaskActionTextGenerate, ChannelType := C.ChannelTypeKling }),
    ("suno_music",
      { Platform := C.TaskPlatformSuno, Action := C.SunoActionMusic, ChannelType := 0 }),
    ("suno_lyrics",
      { Platform := C.TaskPlatformSuno, Action := C.SunoActionLyrics, ChannelType := 0 }),
    ("cogvideox-text-to-video",
      { Platform := "", Action := C.TaskActionTextGenerate, ChannelType := C.ChannelTypeAli }),
    ("cogvideox-image-to-video",
      { Platform := "", Action := C.TaskActionGenerate, ChannelType := C.ChannelTypeAli }),
    ("gemini-2.0-flash-exp",
      { Platform := "", Action := C.TaskActionTextGenerate, ChannelType := C.ChannelTypeGemini }),
    ("gemini-exp-1206",
      { Platform := "", Action := C.TaskActionTextGenerate, ChannelType := C.ChannelTypeGemini }),
    ("gemini-2.0-flash-thinking-exp",
      { Platform := "", Action := C.TaskActionTextGenerate, ChannelType := C.ChannelTypeGemini }),
    ("hailuo-v1",
      { Platform := "", Action := C.TaskActionTextGenerate, ChannelType := C.ChannelTypeMiniMax }),
    ("minimax-video",
      { Platform := "", Action := C.TaskActionTextGenerate, ChannelType := C.ChannelTypeMiniMax }),
    ("vidu-1",
      { Platform := "", Action := C.TaskActionTextGenerate, ChannelType := C.ChannelTypeVidu }),
    ("vidu-1-stable",
      { Platform := "", Action := C.TaskActionTextGenerate, ChannelType := C.ChannelTypeVidu }),
    ("doubao-video-pro",
      { Platform := "", Action := C.TaskActionTextGenerate,
        ChannelType := C.ChannelTypeDoubaoVideo }),
    ("doubao-video-lite",
      { Platform := "", Action := C.TaskActionTextGenerate,
        ChannelType := C.ChannelTypeDoubaoVideo }),
    ("doubao-video-turbo",
      { Platform := "", Action := C.TaskActionTextGenerate,
        ChannelType := C.ChannelTypeDoubaoVideo }),
    ("jimeng-v2",
      { Platform := "", Action := C.TaskActionTextGenerate, ChannelType := C.ChannelTypeJimeng }),
    ("jimeng-1.5-pro",
      { Platform := "", Action := C.TaskActionTextGenerate, ChannelType := C.ChannelTypeJimeng }),
    ("vertex-imagen-3",
      { Platform := "", Action := C.TaskActionTextGenerate,
        ChannelType := C.ChannelTypeVertexAi }) ]

/-- Go `strconv.Itoa`: the decimal text of an integer. -/
def Itoa (n : Int) : String :=
  toString n

/-- The function `GetModelMapping` of `service/model_mapping.go`, run against the current
value `table` of `modelMappingTable`. The first component is the returned pair
(`Except.ok config` for `&config, nil`; `Except.error msg` for `nil, err`), the second
the value of the table after the call: the lookup copies the entry into the local
`config`, the assignment to `config.Platform` changes that copy, and no statement
assigns to the map. -/
def GetModelMapping (table : MappingTable) (model : String) :
    Except String ModelMappingConfig × MappingTable :=
  match table.lookup model with
  | some config =>
    let config :=
      if config.Platform = "" ∧ config.ChannelType > 0 then
        { config with Platform := Itoa config.ChannelType }
      else config
    (Except.ok config, table)
  | none => (Except.error ("unsupported model: " ++ model), table)

/-- The function `GetAllSupportedModels` of `service/model_mapping.go`. Go ranges over a map
in an unspecified order; the model lists the keys in the order of the pair list, and
the properties below are stated for every reordering of this list. -/
def GetAllSupportedModels (table : MappingTable) : List String :=
  table.map Prod.fst

/-- The function `ParseInputParameters` of `service/model_mapping.go`. A map argument or
result is `none` when it is the nil map. -/
def ParseInputParameters (table : MappingTable) (model : String) (input : Option JsonMap) :
    Except String (Option JsonMap) :=
  match input with
  | none => Except.ok (some [])
  | some m =>
    match (GetModelMapping table model).1 with
    | Except.error err => Except.error err
    | Except.ok _ => Except.ok (some m)

/-! ## `controller/unified_task.go`: the batch fetch handler -/

/-- Go `strings.TrimSpace`: leading and trailing white space removed. The white space of
package `unicode` is the set of code points of `isSpace`. -/
def TrimSpace (s : String) : String :=
  String.mk ((s.data.dropWhile isSpace).reverse.dropWhile isSpace).reverse

/-- The struct `UnifiedTaskBatchFetchResponse` of `dto/unified_task.go`. -/
structure UnifiedTaskBatchFetchResponse where
  Code : Int
  Message : String
  Data : List UnifiedTaskDetailData

/-- What one run of `UnifiedTaskFetchBatch` does: the HTTP status and body it passes to
`c.JSON`, and the id list it hands to `model.GetByTaskIds` (`none` when the store is
not queried). -/
structure BatchFetchRun where
  status : Int
  body : UnifiedTaskBatchFetchResponse
  storeQuery : Option (List String)

/-- A response without data and without a store query. -/
def rejectBatch (status : Int) (message : String) : BatchFetchRun :=
  { status := status
    body := { Code := status, Message := message, Data := [] }
    storeQuery := none }

/-- The loop of `UnifiedTaskFetchBatch` that builds `taskIds`: each segment is trimmed and
appended when the trimmed text is not empty. -/
def collectTaskIds (taskIdList : List String) : List String :=
  taskIdList.foldl
    (fun taskIds id =>
      let trimmedId := TrimSpace id
      if trimmedId ≠ "" then taskIds ++ [trimmedId] else taskIds)
    []

/-- The function `UnifiedTaskFetchBatch` of `controller/unified_task.go`. `userId` and
`taskIdsStr` are what the handler reads from the request context; `GetByTaskIds`
stands for the store call `model.GetByTaskIds`. -/
def UnifiedTaskFetchBatch (K : StatusNames) (Unmarshal : String → Option JsonMap)
    (GetByTaskIds : Int → List String → Except String (List Task))
    (userId : Int) (taskIdsStr : String) : BatchFetchRun :=
  if taskIdsStr = "" then rejectBatch 400 "taskIds is required"
  else
    let taskIdList := Split taskIdsStr ','
    if taskIdList.length = 0 then rejectBatch 400 "taskIds cannot be empty"
    else if taskIdList.length > 50 then
      rejectBatch 400 "taskIds count exceeds limit (max 50)"
    else
      let taskIds := collectTaskIds taskIdList
      if taskIds.length = 0 then rejectBatch 400 "no valid taskIds provided"
      else
        match GetByTaskIds userId taskIds with
        | Except.error err =>
          { status := 500
            body := { Code := 500, Message := "query tasks failed: " ++ err, Data := [] }
            storeQuery := some taskIds }
        | Except.ok tasks =>
          { status := 200
            body :=
              { Code := 200
                Message := "success"
                Data := tasks.map (convertTaskToUnifiedFormat K Unmarshal) }
            storeQuery := some taskIds }

/-! ## Specification-side notions -/

/-- The key of a code point under Unicode simple case folding, for the orbits that have
an ASCII member: an upper-case ASCII letter, U+017F (long s) and U+212A (Kelvin sign)
are sent to the lower-case ASCII letter of their orbit, every other code point to
itself. -/
def foldKey (r : Nat) : Nat :=
  if 0x41 ≤ r ∧ r ≤ 0x5A then r + 0x20
  else if r = 0x17F then 0x73
  else if r = 0x212A then 0x6B
  else r

/-- Two strings are equal ignoring letter case: they have the same length and
corresponding characters have the same case-folding key. The notion is exact for
Unicode simple case folding whenever one of the two strings is ASCII. -/
def EqIgnoreCase (s t : String) : Prop :=
  s.data.map (fun c => foldKey c.toNat) = t.data.map (fun c => foldKey c.toNat)

instance (s t : String) : Decidable (EqIgnoreCase s t) := by
  unfold EqIgnoreCase; infer_instance

/-- The block of characters `pre` is a non-empty run of decimal digits that denotes `n`:
reading it in base 10 in front of any text continues with the accumulator shifted by
its length and increased by `n`. -/
def Denotes (pre : List Char) (n : Nat) : Prop :=
  pre ≠ [] ∧ (∀ c ∈ pre, c.isDigit = true) ∧
    ∀ (tail : List Char) (acc : Nat),
      parseDecimal (pre ++ tail) acc = parseDecimal tail (acc * 10 ^ pre.length + n)

/-- The 22 model names that `modelMappingTable` registers, in source order. -/
def registeredModels : List String :=
  [ "sora-2-pro-text-to-video", "sora-2-text-to-video",
    "kling-v1", "kling-v1-6", "kling-v2-master",
    "suno_music", "suno_lyrics",
    "cogvideox-text-to-video", "cogvideox-image-to-video",
    "gemini-2.0-flash-exp", "gemini-exp-1206", "gemini-2.0-flash-thinking-exp",
    "hailuo-v1", "minimax-video",
    "vidu-1", "vidu-1-stable",
    "doubao-video-pro", "doubao-video-lite", "doubao-video-turbo",
    "jimeng-v2", "jimeng-1.5-pro",
    "vertex-imagen-3" ]

/-- The ids a `taskIds` string denotes: its comma-separated segments, each with the
surrounding white space trimmed, without the segments that are empty after trimming,
in their original order and with repetitions kept. -/
def trimmedIds (taskIdsStr : String) : List String :=
  ((Split taskIdsStr ',').map TrimSpace).filter (fun id => id ≠ "")

/-- The number a segment starts with: after leading white space and one optional sign, the
value of the longest run of decimal digits; `none` when that run is empty. -/
def leadingNumber (seg : List Char) : Option Nat :=
  let s := seg.dropWhile isSpace
  let s :=
    match s with
    | c :: cs => if c = '+' ∨ c = '-' then cs else c :: cs
    | [] => []
  let ds := s.takeWhile Char.isDigit
  if ds.isEmpty then none
  else some (ds.foldl (fun acc c => 10 * acc + (c.toNat - 48)) 0)

/-! ## Sample collaborators for the examples -/

/-- A finite sample of `common.Unmarshal` into a `map[string]interface{}`: the empty
input and the truncated object `{` are decoding errors, `{}` and `null` decode to a
map without entries, and `{"resultUrls":["https://x/1"]}` decodes to its one field.
Inputs outside the sample are reported as decoding errors. -/
def unmarshalSample (data : String) : Option JsonMap :=
  if data = "\x7b\"resultUrls\":[\"https://x/1\"]\x7d" then
    some [("resultUrls", JsonValue.array [JsonValue.string "https://x/1"])]
  else if data = "\x7b\x7d" ∨ data = "null" then some []
  else none

/-- An environment for the examples: the upstream status names, the sample parser and
decoder, no serialiser (every `Marshal` call reports an error), the given network
behaviour and a fixed clock reading. -/
def sampleEnv (respond : Nat → Option Int) : Env :=
  { K := upstreamStatus
    urlParse := urlParseSample
    Unmarshal := unmarshalSample
    Marshal := fun _ => none
    respond := fun i _ _ => respond i
    now := 1700000000 }

/-- A task for the examples: finished with success, result in `Data`, callback URL set. -/
def sampleTask : Task :=
  { ID := 7
    TaskID := "task_7"
    Status := "SUCCESS"
    Progress := "100%"
    Data := "\x7b\"resultUrls\":[\"https://x/1\"]\x7d"
    FailReason := ""
    CallBackUrl := "https://hooks.example.com/cb"
    CallbackStatus := "PENDING"
    CallbackRetryCount := 0
    CallbackTime := 0
    CreatedAt := 1699999000
    FinishTime := 1699999600
    Properties :=
      { OriginModelName := "kling-v1", UpstreamModelName := "kling-v1-upstream", Input := "" } }

/-- The state before a dispatch of `task`: its store row, no attempt made, no sleep. -/
def initialWorld (task : Task) : World :=
  { row := task, attempts := 0, sleeps := [] }

/-- Sample values for the constants of package `constant`, patterned on the upstream
project: positive channel types and non-empty names. Used to instantiate `Constants`
in examples. -/
def upstreamConstants : Constants :=
  { ChannelTypeSora := 55
    ChannelTypeKling := 50
    ChannelTypeAli := 17
    ChannelTypeGemini := 24
    ChannelTypeMiniMax := 35
    ChannelTypeVidu := 52
    ChannelTypeDoubaoVideo := 54
    ChannelTypeJimeng := 51
    ChannelTypeVertexAi := 41
    TaskActionGenerate := "generate"
    TaskActionTextGenerate := "textGenerate"
    SunoActionMusic := "MUSIC"
    SunoActionLyrics := "LYRICS"
    TaskPlatformSuno := "suno" }

mutual
/-- A sample of `json.Marshal` on one value: compact output, object fields in list order,
strings written between quotes without escaping (exact for text that needs none). -/
def JsonValue.render : JsonValue → String
  | .null => "null"
  | .bool b => if b then "true" else "false"
  | .number literal => literal
  | .string s => "\"" ++ s ++ "\""
  | .array items => "[" ++ renderItems items ++ "]"
  | .object fields => "\x7b" ++ renderFields fields ++ "\x7d"
/-- The items of an array, separated by commas. -/
def renderItems : List JsonValue → String
  | [] => ""
  | [x] => x.render
  | x :: xs => x.render ++ "," ++ renderItems xs
/-- The fields of an object, separated by commas. -/
def renderFields : List (String × JsonValue) → String
  | [] => ""
  | [(k, v)] => "\"" ++ k ++ "\":" ++ v.render
  | (k, v) :: kvs => "\"" ++ k ++ "\":" ++ v.render ++ "," ++ renderFields kvs
end

/-- A sample of `json.Marshal` on a result map; it never reports an error. -/
def marshalSample (m : JsonMap) : Option String :=
  some ("\x7b" ++ renderFields m ++ "\x7d")

/-- A sample store: it holds the sample task under its id and answers a query with the
stored tasks whose id is listed. -/
def storeSample (_userId : Int) (taskIds : List String) : Except String (List Task) :=
  Except.ok ([sampleTask].filter (fun t => taskIds.contains t.TaskID))

/-! # Properties -/

/-! ## Helper lemmas: strings, case folding, `Sscanf` -/

theorem isDigit_iff (c : Char) : c.isDigit = true ↔ 48 ≤ c.toNat ∧ c.toNat ≤ 57 := by
  unfold Char.isDigit
  simp only [Bool.and_eq_true, decide_eq_true_eq, ge_iff_le]
  exact Iff.rfl

theorem digitChar_spec (m : Nat) (h : m < 10) :
    (Nat.digitChar m).isDigit = true ∧ (Nat.digitChar m).toNat - 48 = m := by
  interval_cases m <;> decide

theorem toDigitsCore_denotes (fuel : Nat) : ∀ (n : Nat) (ds : List Char), n < fuel →
    ∃ pre, Nat.toDigitsCore 10 fuel n ds = pre ++ ds ∧ Denotes pre n := by
  induction fuel with
  | zero => intro n ds h; omega
  | succ fuel ih =>
    intro n ds h
    have hd := digitChar_spec (n % 10) (Nat.mod_lt _ (by decide))
    by_cases h0 : n / 10 = 0
    · refine ⟨[Nat.digitChar (n % 10)], ?_, by simp, ?_, ?_⟩
      · simp [Nat.toDigitsCore, h0]
      · intro c hc
        simp only [List.mem_singleton] at hc
        rw [hc]; exact hd.1
      · intro tail acc
        have hn : n % 10 = n := Nat.mod_eq_of_lt (by omega)
        simp only [List.singleton_append, parseDecimal, hd.1, if_true, hd.2, List.length_singleton,
          pow_one]
        congr 1
        omega
    · obtain ⟨pre, hpre, hne, hdig, hval⟩ := ih (n / 10) (Nat.digitChar (n % 10) :: ds) (by omega)
      refine ⟨pre ++ [Nat.digitChar (n % 10)], ?_, by simp, ?_, ?_⟩
      · simp [Nat.toDigitsCore, h0, hpre]
      · intro c hc
        rcases List.mem_append.1 hc with hc | hc
        · exact hdig c hc
        · simp only [List.mem_singleton] at hc
          rw [hc]; exact hd.1
      · intro tail acc
        rw [List.append_assoc, hval]
        simp only [List.singleton_append, parseDecimal, hd.1, if_true, hd.2, List.length_append,
          List.length_singleton, pow_succ]
        congr 1
        have := Nat.div_add_mod n 10
        ring_nf
        omega

theorem repr_denotes (n : Nat) : Denotes (toString n).data n := by
  obtain ⟨pre, hpre, h⟩ := toDigitsCore_denotes (n + 1) n [] (by omega)
  have : (toString n).data = pre := by
    show (Nat.repr n).data = pre
    simp [Nat.repr, Nat.toDigits, hpre, List.asString]
  rw [this]; exact h

theorem splitAt1_append (sep : Char) (ds rest : List Char) (h : sep ∉ ds) :
    splitAt1 sep (ds ++ sep :: rest) = ds :: splitAt1 sep rest := by
  induction ds with
  | nil => simp [splitAt1]
  | cons c ds ih =>
    have hc : c ≠ sep := fun e => h (by simp [e])
    have hds : sep ∉ ds := fun e => h (by simp [e])
    simp [splitAt1, hc, ih hds]

theorem isSpace_of_isDigit (c : Char) (h : c.isDigit = true) : isSpace c = false := by
  rw [isDigit_iff] at h
  simp only [isSpace, Bool.or_eq_false_iff, Bool.and_eq_false_iff, decide_eq_false_iff_not]
  refine ⟨⟨⟨⟨⟨⟨⟨⟨⟨⟨?_, ?_⟩, ?_⟩, ?_⟩, ?_⟩, ?_⟩, ?_⟩, ?_⟩, ?_⟩, ?_⟩, ?_⟩ <;> omega

theorem takeWhile_append_of (p : Char → Bool) (ds t : List Char) (h : ∀ c ∈ ds, p c = true)
    (ht : ∀ c, t.head? = some c → p c = false) : (ds ++ t).takeWhile p = ds := by
  induction ds with
  | nil =>
    cases t with
    | nil => rfl
    | cons c t => simp [List.takeWhile, ht c rfl]
  | cons d ds ih =>
    simp [List.takeWhile, h d (by simp), ih (fun c hc => h c (by simp [hc]))]

theorem Sscanf_d_denotes (ds t : List Char) (n : Nat) (h : Denotes ds n)
    (ht : ∀ c, t.head? = some c → isScanDigit c = false) :
    Sscanf_d (String.mk (ds ++ t)) = if n < 2 ^ 63 then some (n : Int) else none := by
  obtain ⟨hne, hdig, hval⟩ := h
  cases ds with
  | nil => exact absurd rfl hne
  | cons c cs =>
    have hc : c.isDigit = true := hdig c (by simp)
    have h1 : c ≠ '\n' := by rintro rfl; exact absurd hc (by decide)
    have h2 : c ≠ '+' := by rintro rfl; exact absurd hc (by decide)
    have h3 : c ≠ '-' := by rintro rfl; exact absurd hc (by decide)
    have h4 : isSpace c = false := isSpace_of_isDigit c hc
    have htw : ((c :: cs) ++ t).takeWhile isScanDigit = c :: cs :=
      takeWhile_append_of _ _ _ (fun d hd => by simp [isScanDigit, hdig d hd]) ht
    have hp : parseDecimal (c :: cs) 0 = some n := by
      have := hval [] 0
      simpa [parseDecimal] using this
    simp only [Sscanf_d, List.cons_append, SkipSpace, h1, h4, if_false, h2, h3, or_self,
      Bool.false_eq_true]
    have htw2 : List.takeWhile isScanDigit (c :: cs.append t) = c :: cs := htw
    rw [htw2]
    simp [ParseInt64, hp]

theorem splitAt1_head (sep : Char) (l : List Char) :
    ∃ ps, splitAt1 sep l = l.takeWhile (fun c => decide (c ≠ sep)) :: ps := by
  induction l with
  | nil => exact ⟨[], rfl⟩
  | cons c cs ih =>
    obtain ⟨ps, hps⟩ := ih
    by_cases hc : c = sep
    · exact ⟨splitAt1 sep cs, by simp [splitAt1, hc]⟩
    · exact ⟨ps, by simp [splitAt1, hc, hps]⟩

theorem isValidCallbackURL_172 (urlParse : String → Option URL) (callbackURL : String) (u : URL)
    (body : List Char) (hu : urlParse callbackURL = some u)
    (hs : u.Scheme = "http" ∨ u.Scheme = "https")
    (hh : u.Hostname = String.mk ('1' :: '7' :: '2' :: '.' :: body)) :
    isValidCallbackURL urlParse callbackURL =
      match Sscanf_d (String.mk (body.takeWhile (fun c => decide (c ≠ '.')))) with
      | some second => decide (¬ (16 ≤ second ∧ second ≤ 31))
      | none => true := by
  obtain ⟨ps, hps⟩ := splitAt1_head '.' body
  have hsch : ¬ (u.Scheme ≠ "http" ∧ u.Scheme ≠ "https") := by
    rcases hs with h | h <;> simp [h]
  have hne : u.Hostname ≠ "" := by
    rw [hh]; intro h
    have := congrArg String.data h
    simp at this
  have hbl : blacklist.any (fun blocked => EqualFold u.Hostname blocked) = false := by
    rw [hh]
    simp [blacklist, EqualFold, equalFoldRunes, foldEqRune, SimpleFold]
  have hp1 : HasPrefix u.Hostname "192.168." = false := by
    rw [hh]; simp [HasPrefix, List.isPrefixOf]
  have hp2 : HasPrefix u.Hostname "10." = false := by
    rw [hh]; simp [HasPrefix, List.isPrefixOf]
  have hp3 : HasPrefix u.Hostname "172." = true := by
    rw [hh]; simp [HasPrefix]
  have hsplit : Split u.Hostname '.' =
      "172" :: String.mk (body.takeWhile (fun c => decide (c ≠ '.'))) :: ps.map String.mk := by
    rw [hh]
    simp [Split, splitAt1, hps]
  unfold isValidCallbackURL
  rw [hu]
  simp only [if_neg hsch, if_neg hne, hbl, hp1, hp2, hp3, hsplit]
  simp only [List.length_cons, List.getD_cons_succ, List.getD_cons_zero]
  cases Sscanf_d (String.mk (body.takeWhile (fun c => decide (c ≠ '.')))) with
  | none => simp
  | some second =>
    by_cases hr : 16 ≤ second ∧ second ≤ 31
    · simp [hr]
    · simp [hr]

theorem SimpleFold_upper (a : Nat) (h1 : 0x41 ≤ a) (h2 : a ≤ 0x5A) : SimpleFold a = a + 0x20 := by
  unfold SimpleFold
  split_ifs <;> omega

theorem SimpleFold_lower (a : Nat) (h1 : 0x61 ≤ a) (h2 : a ≤ 0x7A) (h3 : a ≠ 0x6B)
    (h4 : a ≠ 0x73) : SimpleFold a = a - 0x20 := by
  unfold SimpleFold
  split_ifs <;> omega

theorem SimpleFold_other (a : Nat) (h1 : a < 0x41 ∨ (0x5A < a ∧ a < 0x61) ∨ 0x7A < a)
    (h2 : a ≠ 0x212A) (h3 : a ≠ 0x17F) : SimpleFold a = a := by
  unfold SimpleFold
  split_ifs <;> omega

theorem foldKey_eq_iff (k b : Nat) (hk : 0x61 ≤ k ∧ k ≤ 0x7A) :
    k = foldKey b ↔ (b = k ∨ b + 0x20 = k ∨ (b = 0x17F ∧ k = 0x73) ∨ (b = 0x212A ∧ k = 0x6B)) := by
  unfold foldKey
  split_ifs <;> omega

theorem foldKey_eq_self_iff (a b : Nat)
    (h1 : a < 0x41 ∨ (0x5A < a ∧ a < 0x61) ∨ 0x7A < a) (h2 : a ≠ 0x212A) (h3 : a ≠ 0x17F) :
    a = foldKey b ↔ a = b := by
  unfold foldKey
  split_ifs <;> omega

theorem foldEqRune_iff (a b : Nat) : foldEqRune a b = true ↔ foldKey a = foldKey b := by
  simp only [foldEqRune, Bool.or_eq_true, decide_eq_true_eq]
  by_cases hu : 0x41 ≤ a ∧ a ≤ 0x5A
  · have e1 := SimpleFold_upper a hu.1 hu.2
    have hk : foldKey a = a + 0x20 := by unfold foldKey; rw [if_pos hu]
    rw [e1, hk, foldKey_eq_iff _ _ (by omega)]
    by_cases hK : a = 0x4B
    · subst hK; simp [SimpleFold]; omega
    · by_cases hS : a = 0x53
      · subst hS; simp [SimpleFold]; omega
      · rw [SimpleFold_lower _ (by omega) (by omega) (by omega) (by omega)]
        omega
  · by_cases hl : 0x61 ≤ a ∧ a ≤ 0x7A
    · have hk : foldKey a = a := by unfold foldKey; split_ifs <;> omega
      rw [hk, foldKey_eq_iff _ _ hl]
      by_cases hK : a = 0x6B
      · subst hK; simp [SimpleFold]; omega
      · by_cases hS : a = 0x73
        · subst hS; simp [SimpleFold]; omega
        · rw [SimpleFold_lower _ hl.1 hl.2 hK hS,
            SimpleFold_upper _ (by omega) (by omega)]
          omega
    · by_cases hK : a = 0x212A
      · subst hK
        have hk : foldKey 0x212A = 0x6B := by decide
        rw [hk, foldKey_eq_iff _ _ (by omega)]
        simp [SimpleFold]; omega
      · by_cases hS : a = 0x17F
        · subst hS
          have hk : foldKey 0x17F = 0x73 := by decide
          rw [hk, foldKey_eq_iff _ _ (by omega)]
          simp [SimpleFold]; omega
        · have ho : a < 0x41 ∨ (0x5A < a ∧ a < 0x61) ∨ 0x7A < a := by omega
          have hk : foldKey a = a := by
            unfold foldKey
            rw [if_neg hu, if_neg hS, if_neg hK]
          rw [SimpleFold_other a ho hK hS, SimpleFold_other a ho hK hS, hk,
            foldKey_eq_self_iff a b ho hK hS]
          omega

theorem equalFoldRunes_iff (s t : List Char) :
    equalFoldRunes s t = true ↔
      s.map (fun c => foldKey c.toNat) = t.map (fun c => foldKey c.toNat) := by
  induction s generalizing t with
  | nil => cases t <;> simp [equalFoldRunes]
  | cons a s ih =>
    cases t with
    | nil => simp [equalFoldRunes]
    | cons b t => simp [equalFoldRunes, foldEqRune_iff, ih]

theorem EqualFold_iff (s t : String) : EqualFold s t = true ↔ EqIgnoreCase s t :=
  equalFoldRunes_iff s.data t.data

/-! ## Helper lemmas: the retry loop -/

theorem retryLoop_success (env : Env) (task : Task) (payload : TaskCallbackPayload)
    (m i : Nat) (w : World) (hi : i < m)
    (hok : sendCallback env i task.CallBackUrl payload = true) :
    retryLoop env task payload m i w =
      { w with
        attempts := w.attempts + 1
        row := { w.row with
          CallbackStatus := CallbackStatusSuccess
          CallbackTime := env.now
          CallbackRetryCount := (i : Int) + 1 } } := by
  rw [retryLoop]
  simp [hi, hok]

theorem retryLoop_failure (env : Env) (task : Task) (payload : TaskCallbackPayload)
    (m i : Nat) (w : World) (hi : i < m)
    (hok : sendCallback env i task.CallBackUrl payload = false) :
    retryLoop env task payload m i w =
      retryLoop env task payload m (i + 1)
        { attempts := w.attempts + 1
          row := { w.row with CallbackRetryCount := (i : Int) + 1 }
          sleeps := if i < m - 1 then w.sleeps ++ [1 <<< i] else w.sleeps } := by
  rw [retryLoop]
  simp only [hi, hok, if_true, Bool.false_eq_true, if_false]
  split <;> rfl

theorem retryLoop_exhausted (env : Env) (task : Task) (payload : TaskCallbackPayload)
    (m i : Nat) (w : World) (hi : ¬ i < m) :
    retryLoop env task payload m i w =
      { w with
        row := { w.row with
          CallbackStatus := CallbackStatusFailed
          CallbackTime := env.now } } := by
  rw [retryLoop]
  simp [hi]

theorem retryLoop_three (env : Env) (task : Task) (payload : TaskCallbackPayload) (w : World) :
    retryLoop env task payload 3 0 w =
      if sendCallback env 0 task.CallBackUrl payload = true then
        { w with
          attempts := w.attempts + 1
          row := { w.row with
            CallbackStatus := "SUCCESS", CallbackTime := env.now, CallbackRetryCount := 1 } }
      else if sendCallback env 1 task.CallBackUrl payload = true then
        { attempts := w.attempts + 2
          sleeps := w.sleeps ++ [1]
          row := { w.row with
            CallbackStatus := "SUCCESS", CallbackTime := env.now, CallbackRetryCount := 2 } }
      else if sendCallback env 2 task.CallBackUrl payload = true then
        { attempts := w.attempts + 3
          sleeps := w.sleeps ++ [1, 2]
          row := { w.row with
            CallbackStatus := "SUCCESS", CallbackTime := env.now, CallbackRetryCount := 3 } }
      else
        { attempts := w.attempts + 3
          sleeps := w.sleeps ++ [1, 2]
          row := { w.row with
            CallbackStatus := "FAILED", CallbackTime := env.now, CallbackRetryCount := 3 } } := by
  by_cases h0 : sendCallback env 0 task.CallBackUrl payload = true
  · rw [retryLoop_success _ _ _ _ _ _ (by decide) h0, if_pos h0]
    simp [CallbackStatusSuccess]
  · rw [if_neg h0]
    rw [Bool.not_eq_true] at h0
    rw [retryLoop_failure _ _ _ _ _ _ (by decide) h0]
    by_cases h1 : sendCallback env 1 task.CallBackUrl payload = true
    · rw [retryLoop_success _ _ _ _ _ _ (by decide) h1, if_pos h1]
      simp [CallbackStatusSuccess]
    · rw [if_neg h1]
      rw [Bool.not_eq_true] at h1
      rw [retryLoop_failure _ _ _ _ _ _ (by decide) h1]
      by_cases h2 : sendCallback env 2 task.CallBackUrl payload = true
      · rw [retryLoop_success _ _ _ _ _ _ (by decide) h2, if_pos h2]
        simp [CallbackStatusSuccess]
      · rw [if_neg h2]
        rw [Bool.not_eq_true] at h2
        rw [retryLoop_failure _ _ _ _ _ _ (by decide) h2,
          retryLoop_exhausted _ _ _ _ _ _ (by decide)]
        simp [CallbackStatusFailed]

/-! ## The callback URL guard -/

/-- Claim C1. `isValidCallbackURL` returns false whenever the URL fails to parse, or it
parses and its scheme is neither `http` nor `https`, or its hostname is empty, or its
hostname equals `localhost`, `127.0.0.1`, `0.0.0.0` or `::1` ignoring letter case, or
its hostname begins with the text `192.168.` or `10.`; with the sample parser the five
URLs named in the claim are rejected. -/
theorem isValidCallbackURL_rejects :
    (∀ (urlParse : String → Option URL) (callbackURL : String),
      (urlParse callbackURL = none ∨
        ∃ u, urlParse callbackURL = some u ∧
          ((u.Scheme ≠ "http" ∧ u.Scheme ≠ "https") ∨ u.Hostname = ""
            ∨ (∃ blocked ∈ ["localhost", "127.0.0.1", "0.0.0.0", "::1"],
                EqIgnoreCase u.Hostname blocked)
            ∨ HasPrefix u.Hostname "192.168." = true ∨ HasPrefix u.Hostname "10." = true)) →
      isValidCallbackURL urlParse callbackURL = false)
    ∧ isValidCallbackURL urlParseSample "http://127.0.0.1/hook" = false
    ∧ isValidCallbackURL urlParseSample "http://LOCALHOST/x" = false
    ∧ isValidCallbackURL urlParseSample "http://192.168.1.5/hook" = false
    ∧ isValidCallbackURL urlParseSample "ftp://example.com" = false
    ∧ isValidCallbackURL urlParseSample "http://10.example.com/" = false := by
  refine ⟨?_, by decide, by decide, by decide, by decide, by decide⟩
  intro urlParse callbackURL h
  rcases h with h | ⟨u, hu, h⟩
  · simp [isValidCallbackURL, h]
  · unfold isValidCallbackURL
    rw [hu]
    simp only []
    by_cases hs : u.Scheme ≠ "http" ∧ u.Scheme ≠ "https"
    · rw [if_pos hs]
    · rw [if_neg hs]
      by_cases he : u.Hostname = ""
      · rw [if_pos he]
      · rw [if_neg he]
        rcases h with h | h | h | h | h
        · exact absurd h hs
        · exact absurd h he
        · obtain ⟨blocked, hmem, heq⟩ := h
          have hb : blacklist.any (fun blocked => EqualFold u.Hostname blocked) = true := by
            rw [List.any_eq_true]
            exact ⟨blocked, hmem, (EqualFold_iff _ _).2 heq⟩
          rw [if_pos hb]
        · split
          · rfl
          · simp [h]
        · split
          · rfl
          · simp [h]

/-- Witness for claim C1: the general rule applied to `http://LOCALHOST:8080/x`, whose
hostname equals `localhost` ignoring letter case. -/
theorem isValidCallbackURL_rejects_witness :
    isValidCallbackURL urlParseSample "http://LOCALHOST:8080/x" = false :=
  isValidCallbackURL_rejects.1 urlParseSample "http://LOCALHOST:8080/x"
    (Or.inr ⟨⟨"http", "LOCALHOST"⟩, by decide,
      Or.inr (Or.inr (Or.inl ⟨"localhost", by decide, by decide⟩))⟩)

/-- Claim C2. For every natural number `n` written in decimal and every URL that parses
with scheme `http` or `https` and a hostname of the form `172.` then `n` then a dot then
any text, `isValidCallbackURL` returns false exactly when `16 ≤ n ≤ 31`; with the sample
parser 172.16.0.1, 172.20.0.1 and 172.31.0.1 are rejected and 172.15.0.1 and 172.32.0.1
are allowed. -/
theorem isValidCallbackURL_172_decimal :
    (∀ (urlParse : String → Option URL) (callbackURL : String) (u : URL) (n : Nat)
        (rest : String),
      urlParse callbackURL = some u →
      (u.Scheme = "http" ∨ u.Scheme = "https") →
      u.Hostname = "172." ++ toString n ++ "." ++ rest →
      (isValidCallbackURL urlParse callbackURL = false ↔ 16 ≤ n ∧ n ≤ 31))
    ∧ isValidCallbackURL urlParseSample "http://172.16.0.1/hook" = false
    ∧ isValidCallbackURL urlParseSample "http://172.20.0.1/hook" = false
    ∧ isValidCallbackURL urlParseSample "http://172.31.0.1/hook" = false
    ∧ isValidCallbackURL urlParseSample "http://172.15.0.1/hook" = true
    ∧ isValidCallbackURL urlParseSample "http://172.32.0.1/hook" = true := by
  refine ⟨?_, by decide, by decide, by decide, by decide, by decide⟩
  intro urlParse callbackURL u n rest hu hs hh
  have hden := repr_denotes n
  have hbody : u.Hostname =
      String.mk ('1' :: '7' :: '2' :: '.' :: ((toString n).data ++ '.' :: rest.data)) := by
    rw [hh]
    apply String.ext
    simp
  have htw : ((toString n).data ++ '.' :: rest.data).takeWhile (fun c => decide (c ≠ '.'))
      = (toString n).data := by
    apply takeWhile_append_of
    · intro c hc
      have hd := hden.2.1 c hc
      have : c ≠ '.' := by rintro rfl; exact absurd hd (by decide)
      simp [this]
    · intro c hc
      simp only [List.head?_cons, Option.some.injEq] at hc
      subst hc; simp
  have hscan := Sscanf_d_denotes (toString n).data [] n hden (by simp)
  rw [List.append_nil] at hscan
  rw [isValidCallbackURL_172 urlParse callbackURL u _ hu hs hbody, htw, hscan]
  by_cases hlt : n < 2 ^ 63
  · rw [if_pos hlt]
    simp only [decide_eq_false_iff_not, not_not]
    omega
  · rw [if_neg hlt]
    simp only [Bool.true_eq_false, false_iff]
    omega

/-- Witness for claim C2: the rule applied to `https://172.31.255.7:8443/cb`, whose second
segment is 31. -/
theorem isValidCallbackURL_172_decimal_witness :
    isValidCallbackURL urlParseSample "https://172.31.255.7:8443/cb" = false
      ↔ 16 ≤ 31 ∧ 31 ≤ 31 :=
  isValidCallbackURL_172_decimal.1 urlParseSample "https://172.31.255.7:8443/cb"
    ⟨"https", "172.31.255.7"⟩ 31 "255.7" (by decide) (by decide) (by decide)

/-- Claim C3. Every URL that parses with scheme `http` or `https` and a non-empty hostname
that equals none of `localhost`, `127.0.0.1`, `0.0.0.0`, `::1` ignoring letter case and
does not begin with `192.168.`, `10.` or `172.` is accepted by `isValidCallbackURL`; with
the sample parser this includes `https://hooks.example.com/cb` and the address literals
127.0.0.2 and 169.254.169.254. -/
theorem isValidCallbackURL_accepts :
    (∀ (urlParse : String → Option URL) (callbackURL : String) (u : URL),
      urlParse callbackURL = some u →
      (u.Scheme = "http" ∨ u.Scheme = "https") →
      u.Hostname ≠ "" →
      (∀ blocked ∈ ["localhost", "127.0.0.1", "0.0.0.0", "::1"],
        ¬ EqIgnoreCase u.Hostname blocked) →
      HasPrefix u.Hostname "192.168." = false →
      HasPrefix u.Hostname "10." = false →
      HasPrefix u.Hostname "172." = false →
      isValidCallbackURL urlParse callbackURL = true)
    ∧ isValidCallbackURL urlParseSample "https://hooks.example.com/cb" = true
    ∧ isValidCallbackURL urlParseSample "http://127.0.0.2/hook" = true
    ∧ isValidCallbackURL urlParseSample "http://169.254.169.254/latest/meta-data" = true := by
  refine ⟨?_, by decide, by decide, by decide⟩
  intro urlParse callbackURL u hu hs hne hbl h1 h2 h3
  have hsch : ¬ (u.Scheme ≠ "http" ∧ u.Scheme ≠ "https") := by
    rcases hs with h | h <;> simp [h]
  have hany : ¬ (blacklist.any (fun blocked => EqualFold u.Hostname blocked) = true) := by
    rw [List.any_eq_true]
    rintro ⟨blocked, hmem, heq⟩
    exact hbl blocked hmem ((EqualFold_iff _ _).1 heq)
  unfold isValidCallbackURL
  rw [hu]
  simp only [if_neg hsch, if_neg hne, if_neg hany, h1, h2, h3, Bool.or_self,
    Bool.false_eq_true, if_false]

/-- Witness for claim C3: the rule applied to `https://hooks.example.com/cb`. -/
theorem isValidCallbackURL_accepts_witness :
    isValidCallbackURL urlParseSample "https://hooks.example.com/cb" = true :=
  isValidCallbackURL_accepts.1 urlParseSample "https://hooks.example.com/cb"
    ⟨"https", "hooks.example.com"⟩ (by decide) (by decide) (by decide) (by decide)
    (by decide) (by decide) (by decide)

/-! ## The dispatcher: attempts and persisted outcome -/

/-- Claim C4. For a task with a non-empty callback URL that the guard allows, and any
outcomes of the delivery attempts: `TriggerTaskCallback` makes at most 3 attempts; if
the first successful attempt is attempt `k` with `1 ≤ k ≤ 3` it makes exactly `k`
attempts and leaves `CallbackStatus = SUCCESS` and `CallbackRetryCount = k`; if all
three attempts fail it makes exactly 3 attempts and leaves `CallbackStatus = FAILED`
and `CallbackRetryCount = 3`. With responses 500 then 200 the outcome is `SUCCESS`
after 2 attempts; with 500 throughout it is `FAILED` after 3. -/
theorem TriggerTaskCallback_attempts :
    (∀ (env : Env) (task : Task) (w : World),
      task.CallBackUrl ≠ "" →
      isValidCallbackURL env.urlParse task.CallBackUrl = true →
      (TriggerTaskCallback env task w).attempts ≤ w.attempts + 3
      ∧ (∀ k : Nat, 1 ≤ k → k ≤ 3 →
          sendCallback env (k - 1) task.CallBackUrl
            (buildCallbackPayload env.K env.Unmarshal env.Marshal task) = true →
          (∀ j : Nat, j < k - 1 →
            sendCallback env j task.CallBackUrl
              (buildCallbackPayload env.K env.Unmarshal env.Marshal task) = false) →
          (TriggerTaskCallback env task w).attempts = w.attempts + k
          ∧ (TriggerTaskCallback env task w).row.CallbackStatus = "SUCCESS"
          ∧ (TriggerTaskCallback env task w).row.CallbackRetryCount = (k : Int))
      ∧ ((∀ j : Nat, j < 3 →
            sendCallback env j task.CallBackUrl
              (buildCallbackPayload env.K env.Unmarshal env.Marshal task) = false) →
          (TriggerTaskCallback env task w).attempts = w.attempts + 3
          ∧ (TriggerTaskCallback env task w).row.CallbackStatus = "FAILED"
          ∧ (TriggerTaskCallback env task w).row.CallbackRetryCount = 3))
    ∧ ((TriggerTaskCallback (sampleEnv (fun i => if i = 0 then some 500 else some 200))
          sampleTask (initialWorld sampleTask)).attempts = 2
      ∧ (TriggerTaskCallback (sampleEnv (fun i => if i = 0 then some 500 else some 200))
          sampleTask (initialWorld sampleTask)).row.CallbackStatus = "SUCCESS"
      ∧ (TriggerTaskCallback (sampleEnv (fun i => if i = 0 then some 500 else some 200))
          sampleTask (initialWorld sampleTask)).row.CallbackRetryCount = 2)
    ∧ ((TriggerTaskCallback (sampleEnv (fun _ => some 500)) sampleTask
          (initialWorld sampleTask)).attempts = 3
      ∧ (TriggerTaskCallback (sampleEnv (fun _ => some 500)) sampleTask
          (initialWorld sampleTask)).row.CallbackStatus = "FAILED"
      ∧ (TriggerTaskCallback (sampleEnv (fun _ => some 500)) sampleTask
          (initialWorld sampleTask)).row.CallbackRetryCount = 3) := by
  have key : ∀ (env : Env) (task : Task) (w : World), task.CallBackUrl ≠ "" →
      isValidCallbackURL env.urlParse task.CallBackUrl = true →
      TriggerTaskCallback env task w =
        retryLoop env task (buildCallbackPayload env.K env.Unmarshal env.Marshal task) 3 0 w := by
    intro env task w h1 h2
    simp [TriggerTaskCallback, h1, h2]
  have hvalid : isValidCallbackURL urlParseSample "https://hooks.example.com/cb" = true := by
    decide
  refine ⟨?_, ?_, ?_⟩
  · intro env task w h1 h2
    rw [key env task w h1 h2, retryLoop_three]
    generalize buildCallbackPayload env.K env.Unmarshal env.Marshal task = payload
    refine ⟨?_, ?_, ?_⟩
    · split_ifs <;> simp
    · intro k hk1 hk3 hok hprev
      interval_cases k
      · simp at hok
        simp [hok]
      · have h0 := hprev 0 (by decide)
        simp at hok
        simp [hok, h0]
      · have h0 := hprev 0 (by decide)
        have h1 := hprev 1 (by decide)
        simp at hok
        simp [hok, h0, h1]
    · intro hall
      simp [hall 0 (by decide), hall 1 (by decide), hall 2 (by decide)]
  · rw [key _ _ _ (by decide) hvalid, retryLoop_three]
    simp [sendCallback, sampleEnv, initialWorld]
  · rw [key _ _ _ (by decide) hvalid, retryLoop_three]
    simp [sendCallback, sampleEnv, initialWorld]

/-- Witness for claim C4: the general rule at the sample task, with a network that answers
500 and then 200, where the first successful attempt is attempt 2. -/
theorem TriggerTaskCallback_attempts_witness :
    (TriggerTaskCallback (sampleEnv (fun i => if i = 0 then some 500 else some 200))
        sampleTask (initialWorld sampleTask)).attempts = 0 + 2
    ∧ (TriggerTaskCallback (sampleEnv (fun i => if i = 0 then some 500 else some 200))
        sampleTask (initialWorld sampleTask)).row.CallbackStatus = "SUCCESS"
    ∧ (TriggerTaskCallback (sampleEnv (fun i => if i = 0 then some 500 else some 200))
        sampleTask (initialWorld sampleTask)).row.CallbackRetryCount = ((2 : Nat) : Int) :=
  (TriggerTaskCallback_attempts.1 (sampleEnv (fun i => if i = 0 then some 500 else some 200))
    sampleTask (initialWorld sampleTask) (by decide) (by decide)).2.1 2 (by decide) (by decide)
    (by simp [sendCallback, sampleEnv])
    (fun j hj => by
      have hj0 : j = 0 := by omega
      subst hj0
      simp [sendCallback, sampleEnv])

/-! ## The normaliser -/

theorem HasPrefix_ne_empty (s : String) (h : HasPrefix s "http" = true) : s ≠ "" := by
  rintro rfl
  exact absurd h (by decide)

/-- The `Result` field of the view in closed form. -/
theorem convertTaskToUnifiedFormat_Result (K : StatusNames)
    (Unmarshal : String → Option JsonMap) (task : Task) :
    (convertTaskToUnifiedFormat K Unmarshal task).Result =
      if task.Status = K.TaskStatusSuccess then
        match Unmarshal task.Data with
        | some (p :: m) => some (p :: m)
        | _ =>
          if HasPrefix task.FailReason "http" = true then
            some [("resultUrls", JsonValue.array [JsonValue.string task.FailReason])]
          else none
      else none := by
  by_cases hs : task.Status = K.TaskStatusSuccess
  · by_cases hm : task.Properties.OriginModelName = "" <;>
    by_cases hp : HasPrefix task.FailReason "http" = true
    all_goals
      have hne : HasPrefix task.FailReason "http" = true → task.FailReason ≠ "" :=
        HasPrefix_ne_empty _
      rcases hd : Unmarshal task.Data with _ | m
      · simp [convertTaskToUnifiedFormat, hm, hs, hd, resultEmpty, hp, hne]
      · cases m <;> simp [convertTaskToUnifiedFormat, hm, hs, hd, resultEmpty, hp, hne]
  · unfold convertTaskToUnifiedFormat
    simp only [if_neg hs]
    split_ifs <;> rfl

/-- The `Error` field of the view in closed form. -/
theorem convertTaskToUnifiedFormat_Error (K : StatusNames)
    (Unmarshal : String → Option JsonMap) (task : Task) :
    (convertTaskToUnifiedFormat K Unmarshal task).Error =
      if task.Status = K.TaskStatusSuccess then none
      else if task.Status = K.TaskStatusFailure then
        some { Code := "task_failed", Message := task.FailReason }
      else none := by
  by_cases hs : task.Status = K.TaskStatusSuccess
  · by_cases hm : task.Properties.OriginModelName = "" <;>
    by_cases hp : HasPrefix task.FailReason "http" = true
    all_goals
      have hne : HasPrefix task.FailReason "http" = true → task.FailReason ≠ "" :=
        HasPrefix_ne_empty _
      rcases hd : Unmarshal task.Data with _ | m
      · simp [convertTaskToUnifiedFormat, hm, hs, hd, resultEmpty, hp, hne]
      · cases m <;> simp [convertTaskToUnifiedFormat, hm, hs, hd, resultEmpty, hp, hne]
  · unfold convertTaskToUnifiedFormat
    simp only [if_neg hs]
    split_ifs <;> rfl

/-- The `CompletedAt` field of the view in closed form. -/
theorem convertTaskToUnifiedFormat_CompletedAt (K : StatusNames)
    (Unmarshal : String → Option JsonMap) (task : Task) :
    (convertTaskToUnifiedFormat K Unmarshal task).CompletedAt =
      if task.Status = K.TaskStatusSuccess then task.FinishTime
      else if task.Status = K.TaskStatusFailure then task.FinishTime
      else 0 := by
  by_cases hs : task.Status = K.TaskStatusSuccess
  · by_cases hm : task.Properties.OriginModelName = "" <;>
    by_cases hp : HasPrefix task.FailReason "http" = true
    all_goals
      have hne : HasPrefix task.FailReason "http" = true → task.FailReason ≠ "" :=
        HasPrefix_ne_empty _
      rcases hd : Unmarshal task.Data with _ | m
      · simp [convertTaskToUnifiedFormat, hm, hs, hd, resultEmpty, hp, hne]
      · cases m <;> simp [convertTaskToUnifiedFormat, hm, hs, hd, resultEmpty, hp, hne]
  · unfold convertTaskToUnifiedFormat
    simp only [if_neg hs]
    split_ifs <;> rfl

/-- The `State` field of the view in closed form. -/
theorem convertTaskToUnifiedFormat_State (K : StatusNames)
    (Unmarshal : String → Option JsonMap) (task : Task) :
    (convertTaskToUnifiedFormat K Unmarshal task).State = mapTaskStatusToState K task.Status := by
  by_cases hs : task.Status = K.TaskStatusSuccess
  · by_cases hm : task.Properties.OriginModelName = "" <;>
    by_cases hp : HasPrefix task.FailReason "http" = true
    all_goals
      have hne : HasPrefix task.FailReason "http" = true → task.FailReason ≠ "" :=
        HasPrefix_ne_empty _
      rcases hd : Unmarshal task.Data with _ | m
      · simp [convertTaskToUnifiedFormat, hm, hs, hd, resultEmpty, hp, hne]
      · cases m <;> simp [convertTaskToUnifiedFormat, hm, hs, hd, resultEmpty, hp, hne]
  · unfold convertTaskToUnifiedFormat
    simp only [if_neg hs]
    split_ifs <;> rfl

/-- Claim C5. `mapTaskStatusToState` returns `queued` for NotStart, Submitted and Queued,
`processing` for InProgress, `succeeded` for Success, `failed` for Failure and `unknown`
for every other value; for every status value its result is one of these five
strings. -/
theorem mapTaskStatusToState_table (K : StatusNames) (hK : K.Distinct) :
    mapTaskStatusToState K K.TaskStatusNotStart = "queued"
    ∧ mapTaskStatusToState K K.TaskStatusSubmitted = "queued"
    ∧ mapTaskStatusToState K K.TaskStatusQueued = "queued"
    ∧ mapTaskStatusToState K K.TaskStatusInProgress = "processing"
    ∧ mapTaskStatusToState K K.TaskStatusSuccess = "succeeded"
    ∧ mapTaskStatusToState K K.TaskStatusFailure = "failed"
    ∧ (∀ status : String,
        status ≠ K.TaskStatusNotStart → status ≠ K.TaskStatusSubmitted →
        status ≠ K.TaskStatusQueued → status ≠ K.TaskStatusInProgress →
        status ≠ K.TaskStatusSuccess → status ≠ K.TaskStatusFailure →
        mapTaskStatusToState K status = "unknown")
    ∧ (∀ status : String,
        mapTaskStatusToState K status ∈
          ["queued", "processing", "succeeded", "failed", "unknown"]) := by
  simp only [StatusNames.Distinct, List.nodup_cons, List.mem_cons, List.mem_singleton,
    not_or, List.not_mem_nil, not_false_eq_true, List.nodup_nil, and_true] at hK
  obtain ⟨⟨h12, h13, h14, h15, h16⟩, ⟨h23, h24, h25, h26⟩, ⟨h34, h35, h36⟩, ⟨h45, h46⟩, h56⟩ := hK
  refine ⟨?_, ?_, ?_, ?_, ?_, ?_, ?_, ?_⟩
  · simp [mapTaskStatusToState]
  · simp [mapTaskStatusToState]
  · simp [mapTaskStatusToState]
  · simp [mapTaskStatusToState, Ne.symm h14, Ne.symm h24, Ne.symm h34]
  · simp [mapTaskStatusToState, Ne.symm h15, Ne.symm h25, Ne.symm h35, Ne.symm h45]
  · simp [mapTaskStatusToState, Ne.symm h16, Ne.symm h26, Ne.symm h36, Ne.symm h46,
      Ne.symm h56]
  · intro status a b c d e f
    simp [mapTaskStatusToState, a, b, c, d, e, f]
  · intro status
    unfold mapTaskStatusToState
    split_ifs <;> simp

/-- Witness for claim C5: the table at the status names of the upstream project. -/
theorem mapTaskStatusToState_table_witness :
    mapTaskStatusToState upstreamStatus "NOT_START" = "queued"
    ∧ mapTaskStatusToState upstreamStatus "IN_PROGRESS" = "processing"
    ∧ mapTaskStatusToState upstreamStatus "ARCHIVED" = "unknown" :=
  ⟨(mapTaskStatusToState_table upstreamStatus (by decide)).1,
    (mapTaskStatusToState_table upstreamStatus (by decide)).2.2.2.1,
    (mapTaskStatusToState_table upstreamStatus (by decide)).2.2.2.2.2.2.1 "ARCHIVED"
      (by decide) (by decide) (by decide) (by decide) (by decide) (by decide)⟩

/-- Claim C6, as the code behaves. The dispatcher's `mapStatusToState` has no case for
NotStart and returns an unlisted status unchanged: for NotStart it returns the status
string itself where the normaliser returns `queued`, and for a value that is none of
the six statuses it returns that value where the normaliser returns `unknown`. On
Submitted, Queued, InProgress, Success and Failure the two functions agree. -/
theorem mapStatusToState_diverges (K : StatusNames) (hK : K.Distinct) :
    (mapStatusToState K K.TaskStatusNotStart = K.TaskStatusNotStart
      ∧ mapTaskStatusToState K K.TaskStatusNotStart = "queued")
    ∧ (∀ status : String,
        status ≠ K.TaskStatusNotStart → status ≠ K.TaskStatusSubmitted →
        status ≠ K.TaskStatusQueued → status ≠ K.TaskStatusInProgress →
        status ≠ K.TaskStatusSuccess → status ≠ K.TaskStatusFailure →
        mapStatusToState K status = status ∧ mapTaskStatusToState K status = "unknown")
    ∧ (∀ status : String,
        status = K.TaskStatusSubmitted ∨ status = K.TaskStatusQueued
          ∨ status = K.TaskStatusInProgress ∨ status = K.TaskStatusSuccess
          ∨ status = K.TaskStatusFailure →
        mapStatusToState K status = mapTaskStatusToState K status) := by
  simp only [StatusNames.Distinct, List.nodup_cons, List.mem_cons, List.mem_singleton,
    not_or, List.not_mem_nil, not_false_eq_true, List.nodup_nil, and_true] at hK
  obtain ⟨⟨h12, h13, h14, h15, h16⟩, ⟨h23, h24, h25, h26⟩, ⟨h34, h35, h36⟩, ⟨h45, h46⟩, h56⟩ := hK
  refine ⟨⟨?_, ?_⟩, ?_, ?_⟩
  · simp [mapStatusToState, h12, h13, h14, h15, h16]
  · simp [mapTaskStatusToState]
  · intro status a b c d e f
    simp [mapStatusToState, mapTaskStatusToState, a, b, c, d, e, f]
  · intro status h
    rcases h with h | h | h | h | h <;> subst h
    · simp [mapStatusToState, mapTaskStatusToState, h24, h25, h26]
    · simp [mapStatusToState, mapTaskStatusToState, h34, h35, h36]
    · simp [mapStatusToState, mapTaskStatusToState, h45, h46, Ne.symm h14, Ne.symm h24,
        Ne.symm h34]
    · simp [mapStatusToState, mapTaskStatusToState, Ne.symm h15, Ne.symm h25, Ne.symm h35,
        Ne.symm h45]
    · simp [mapStatusToState, mapTaskStatusToState, Ne.symm h16, Ne.symm h26, Ne.symm h36,
        Ne.symm h46, Ne.symm h56]

/-- Witness for claim C6: at the status names of the upstream project the dispatcher sends
`NOT_START` and `ARCHIVED` as the state where the normaliser reports `queued` and
`unknown`. -/
theorem mapStatusToState_diverges_witness :
    (mapStatusToState upstreamStatus "NOT_START" = "NOT_START"
      ∧ mapTaskStatusToState upstreamStatus "NOT_START" = "queued")
    ∧ (mapStatusToState upstreamStatus "ARCHIVED" = "ARCHIVED"
      ∧ mapTaskStatusToState upstreamStatus "ARCHIVED" = "unknown") :=
  ⟨(mapStatusToState_diverges upstreamStatus (by decide)).1,
    (mapStatusToState_diverges upstreamStatus (by decide)).2.1 "ARCHIVED"
      (by decide) (by decide) (by decide) (by decide) (by decide) (by decide)⟩

/-- Claim C7. For a task with `Status = Success` the normaliser (a total function) gives as
`Result`: the map decoded from `Data` when decoding succeeds with a non-empty map,
whatever `FailReason` holds; otherwise the one-field map `resultUrls: [FailReason]` when
`FailReason` begins with `http`; otherwise nothing. With the sample decoder: empty `Data`
and `FailReason = https://cdn.example/out.mp4` give `resultUrls` holding that URL;
a decodable `Data` wins over an `http` `FailReason`; malformed `Data` with a non-http
`FailReason` gives no result. -/
theorem convertTaskToUnifiedFormat_success_result :
    (∀ (K : StatusNames) (Unmarshal : String → Option JsonMap) (task : Task),
      task.Status = K.TaskStatusSuccess →
      (∀ m : JsonMap, Unmarshal task.Data = some m → m ≠ [] →
        (convertTaskToUnifiedFormat K Unmarshal task).Result = some m)
      ∧ ((Unmarshal task.Data = none ∨ Unmarshal task.Data = some []) →
          HasPrefix task.FailReason "http" = true →
          (convertTaskToUnifiedFormat K Unmarshal task).Result =
            some [("resultUrls", JsonValue.array [JsonValue.string task.FailReason])])
      ∧ ((Unmarshal task.Data = none ∨ Unmarshal task.Data = some []) →
          HasPrefix task.FailReason "http" = false →
          (convertTaskToUnifiedFormat K Unmarshal task).Result = none))
    ∧ (convertTaskToUnifiedFormat upstreamStatus unmarshalSample
          { sampleTask with Data := "", FailReason := "https://cdn.example/out.mp4" }).Result =
        some [("resultUrls",
          JsonValue.array [JsonValue.string "https://cdn.example/out.mp4"])]
    ∧ (convertTaskToUnifiedFormat upstreamStatus unmarshalSample
          { sampleTask with FailReason := "https://cdn.example/out.mp4" }).Result =
        some [("resultUrls", JsonValue.array [JsonValue.string "https://x/1"])]
    ∧ (convertTaskToUnifiedFormat upstreamStatus unmarshalSample
          { sampleTask with Data := "\x7b", FailReason := "upstream said ok" }).Result =
        none := by
  refine ⟨?_, by rfl, by rfl, by rfl⟩
  intro K Unmarshal task hs
  rw [convertTaskToUnifiedFormat_Result, if_pos hs]
  refine ⟨?_, ?_, ?_⟩
  · intro m hm hne
    cases m with
    | nil => exact absurd rfl hne
    | cons p m => rw [hm]
  · intro hd hp
    rcases hd with hd | hd <;> rw [hd] <;> simp [hp]
  · intro hd hp
    rcases hd with hd | hd <;> rw [hd] <;> simp [hp]

/-- Witness for claim C7: the fallback rule applied to the sample task with empty `Data` and
a URL in `FailReason`. -/
theorem convertTaskToUnifiedFormat_success_result_witness :
    (convertTaskToUnifiedFormat upstreamStatus unmarshalSample
        { sampleTask with Data := "", FailReason := "https://cdn.example/out.mp4" }).Result =
      some [("resultUrls",
        JsonValue.array [JsonValue.string "https://cdn.example/out.mp4"])] :=
  (convertTaskToUnifiedFormat_success_result.1 upstreamStatus unmarshalSample
    { sampleTask with Data := "", FailReason := "https://cdn.example/out.mp4" }
    (by decide)).2.1 (Or.inl rfl) (by decide)

/-- Claim C8 as stated fails: a task with `Status = Success`, empty `Data` and empty
`FailReason` has neither `Result` nor `Error` populated, so it is not true that every
terminal task has exactly one of the two. -/
theorem convertTaskToUnifiedFormat_neither_populated :
    ({ sampleTask with Data := "", FailReason := "" } : Task).Status
        = upstreamStatus.TaskStatusSuccess
    ∧ (convertTaskToUnifiedFormat upstreamStatus unmarshalSample
        { sampleTask with Data := "", FailReason := "" }).Result.isSome = false
    ∧ (convertTaskToUnifiedFormat upstreamStatus unmarshalSample
        { sampleTask with Data := "", FailReason := "" }).Error.isSome = false
    ∧ ¬ (∀ (K : StatusNames) (Unmarshal : String → Option JsonMap) (task : Task),
        K.Distinct →
        (task.Status = K.TaskStatusSuccess ∨ task.Status = K.TaskStatusFailure) →
        ((convertTaskToUnifiedFormat K Unmarshal task).Result.isSome = true
            ∧ (convertTaskToUnifiedFormat K Unmarshal task).Error.isSome = false)
          ∨ ((convertTaskToUnifiedFormat K Unmarshal task).Result.isSome = false
            ∧ (convertTaskToUnifiedFormat K Unmarshal task).Error.isSome = true)) := by
  refine ⟨by decide, by rfl, by rfl, ?_⟩
  intro h
  have h1 := h upstreamStatus unmarshalSample { sampleTask with Data := "", FailReason := "" }
    (by decide) (Or.inl (by decide))
  have hr : (convertTaskToUnifiedFormat upstreamStatus unmarshalSample
      { sampleTask with Data := "", FailReason := "" }).Result.isSome = false := by rfl
  have he : (convertTaskToUnifiedFormat upstreamStatus unmarshalSample
      { sampleTask with Data := "", FailReason := "" }).Error.isSome = false := by rfl
  rw [hr, he] at h1
  simp at h1

/-- Claim C8, amended. For a task with `Status = Failure` the view has `Error` populated and
`Result` absent. For a task with `Status = Success` the view has `Error` absent, and
`Result` populated exactly when `Data` decodes to a non-empty map or `FailReason` begins
with `http`. So a terminal task never has both populated. -/
theorem convertTaskToUnifiedFormat_result_error (K : StatusNames)
    (Unmarshal : String → Option JsonMap) (task : Task) (hK : K.Distinct) :
    (task.Status = K.TaskStatusFailure →
      (convertTaskToUnifiedFormat K Unmarshal task).Error.isSome = true
      ∧ (convertTaskToUnifiedFormat K Unmarshal task).Result.isSome = false)
    ∧ (task.Status = K.TaskStatusSuccess →
      (convertTaskToUnifiedFormat K Unmarshal task).Error.isSome = false
      ∧ ((convertTaskToUnifiedFormat K Unmarshal task).Result.isSome = true ↔
          ((∃ m : JsonMap, Unmarshal task.Data = some m ∧ m ≠ [])
            ∨ HasPrefix task.FailReason "http" = true))) := by
  simp only [StatusNames.Distinct, List.nodup_cons, List.mem_cons, List.mem_singleton,
    not_or, List.not_mem_nil, not_false_eq_true, List.nodup_nil, and_true] at hK
  obtain ⟨-, -, -, -, h56⟩ := hK
  rw [convertTaskToUnifiedFormat_Result, convertTaskToUnifiedFormat_Error]
  refine ⟨?_, ?_⟩
  · intro hs
    have hne : ¬ task.Status = K.TaskStatusSuccess := by rw [hs]; exact Ne.symm h56
    simp [hs, hne, Ne.symm h56]
  · intro hs
    rw [if_pos hs, if_pos hs]
    refine ⟨rfl, ?_⟩
    rcases hd : Unmarshal task.Data with _ | m
    · by_cases hp : HasPrefix task.FailReason "http" = true <;> simp [hp]
    · cases m with
      | nil => by_cases hp : HasPrefix task.FailReason "http" = true <;> simp [hp]
      | cons p m => simp

/-- Witness for the amended claim C8: the sample task, which finished with success and a
decodable `Data`, under the status names of the upstream project. -/
theorem convertTaskToUnifiedFormat_result_error_witness :
    (convertTaskToUnifiedFormat upstreamStatus unmarshalSample sampleTask).Error.isSome = false
    ∧ ((convertTaskToUnifiedFormat upstreamStatus unmarshalSample sampleTask).Result.isSome
          = true ↔
        ((∃ m : JsonMap, unmarshalSample sampleTask.Data = some m ∧ m ≠ [])
          ∨ HasPrefix sampleTask.FailReason "http" = true)) :=
  (convertTaskToUnifiedFormat_result_error upstreamStatus unmarshalSample sampleTask
    (by decide)).2 (by decide)

/-- Claim C9. For a task with `Status = Failure` the normaliser sets `Error` to the code
`task_failed` with `FailReason` as message, unchanged (also when it is empty or begins
with `http`), leaves `Result` absent and reports the state `failed`; `FailReason =
upstream timeout` gives the error `task_failed`, `upstream timeout`. -/
theorem convertTaskToUnifiedFormat_failure :
    (∀ (K : StatusNames) (Unmarshal : String → Option JsonMap) (task : Task),
      K.Distinct → task.Status = K.TaskStatusFailure →
      (convertTaskToUnifiedFormat K Unmarshal task).Error =
        some { Code := "task_failed", Message := task.FailReason }
      ∧ (convertTaskToUnifiedFormat K Unmarshal task).Result.isSome = false
      ∧ (convertTaskToUnifiedFormat K Unmarshal task).State = "failed")
    ∧ (convertTaskToUnifiedFormat upstreamStatus unmarshalSample
        { sampleTask with Status := "FAILURE", Data := "", FailReason := "upstream timeout" }).Error
        = some { Code := "task_failed", Message := "upstream timeout" }
    ∧ (convertTaskToUnifiedFormat upstreamStatus unmarshalSample
        { sampleTask with Status := "FAILURE", FailReason := "https://cdn.example/out.mp4" }).Error
        = some { Code := "task_failed", Message := "https://cdn.example/out.mp4" }
    ∧ (convertTaskToUnifiedFormat upstreamStatus unmarshalSample
        { sampleTask with Status := "FAILURE", FailReason := "" }).Error
        = some { Code := "task_failed", Message := "" } := by
  refine ⟨?_, by rfl, by rfl, by rfl⟩
  intro K Unmarshal task hK hs
  simp only [StatusNames.Distinct, List.nodup_cons, List.mem_cons, List.mem_singleton,
    not_or, List.not_mem_nil, not_false_eq_true, List.nodup_nil, and_true] at hK
  obtain ⟨⟨-, -, -, -, h16⟩, ⟨-, -, -, h26⟩, ⟨-, -, h36⟩, ⟨-, h46⟩, h56⟩ := hK
  have hne : ¬ task.Status = K.TaskStatusSuccess := by rw [hs]; exact Ne.symm h56
  rw [convertTaskToUnifiedFormat_Result, convertTaskToUnifiedFormat_Error,
    convertTaskToUnifiedFormat_State, if_neg hne, if_neg hne, if_pos hs]
  refine ⟨rfl, rfl, ?_⟩
  rw [hs]
  simp [mapTaskStatusToState, Ne.symm h16, Ne.symm h26, Ne.symm h36, Ne.symm h46,
    Ne.symm h56]

/-- Witness for claim C9: the rule applied to a failed task whose `FailReason` is `upstream
timeout`. -/
theorem convertTaskToUnifiedFormat_failure_witness :
    (convertTaskToUnifiedFormat upstreamStatus unmarshalSample
      { sampleTask with Status := "FAILURE", Data := "", FailReason := "upstream timeout" }).Error
      = some { Code := "task_failed", Message := "upstream timeout" } :=
  (convertTaskToUnifiedFormat_failure.1 upstreamStatus unmarshalSample
    { sampleTask with Status := "FAILURE", Data := "", FailReason := "upstream timeout" }
    (by decide) (by decide)).1

/-- Claim C10. The view's `CompletedAt` equals `FinishTime` when the status is Success or
Failure and is 0 for every other status, whatever `FinishTime` holds; and for every
other status both `Result` and `Error` are absent, whatever `Data` and `FailReason`
hold. -/
theorem convertTaskToUnifiedFormat_completedAt (K : StatusNames)
    (Unmarshal : String → Option JsonMap) (task : Task) :
    ((task.Status = K.TaskStatusSuccess ∨ task.Status = K.TaskStatusFailure) →
      (convertTaskToUnifiedFormat K Unmarshal task).CompletedAt = task.FinishTime)
    ∧ (task.Status ≠ K.TaskStatusSuccess → task.Status ≠ K.TaskStatusFailure →
      (convertTaskToUnifiedFormat K Unmarshal task).CompletedAt = 0
      ∧ (convertTaskToUnifiedFormat K Unmarshal task).Result.isSome = false
      ∧ (convertTaskToUnifiedFormat K Unmarshal task).Error.isSome = false) := by
  rw [convertTaskToUnifiedFormat_Result, convertTaskToUnifiedFormat_Error,
    convertTaskToUnifiedFormat_CompletedAt]
  refine ⟨?_, ?_⟩
  · intro hs
    by_cases h1 : task.Status = K.TaskStatusSuccess
    · rw [if_pos h1]
    · rcases hs with hs | hs
      · exact absurd hs h1
      · rw [if_neg h1, if_pos hs]
  · intro h1 h2
    simp [h1, h2]

/-- Witness for claim C10: a task still in progress, with a stray `FinishTime`, `Data` and
`FailReason`, has no completion time, no result and no error. -/
theorem convertTaskToUnifiedFormat_completedAt_witness :
    (convertTaskToUnifiedFormat upstreamStatus unmarshalSample
        { sampleTask with Status := "IN_PROGRESS", FailReason := "https://x/2" }).CompletedAt = 0
    ∧ (convertTaskToUnifiedFormat upstreamStatus unmarshalSample
        { sampleTask with Status := "IN_PROGRESS", FailReason := "https://x/2" }).Result.isSome
        = false
    ∧ (convertTaskToUnifiedFormat upstreamStatus unmarshalSample
        { sampleTask with Status := "IN_PROGRESS", FailReason := "https://x/2" }).Error.isSome
        = false :=
  (convertTaskToUnifiedFormat_completedAt upstreamStatus unmarshalSample
    { sampleTask with Status := "IN_PROGRESS", FailReason := "https://x/2" }).2
    (by decide) (by decide)

/-! ## The dispatcher: payload -/

/-- The payload of `buildCallbackPayload` in closed form, field by field. -/
theorem buildCallbackPayload_eq (K : StatusNames) (Unmarshal : String → Option JsonMap)
    (Marshal : JsonMap → Option String) (task : Task) :
    buildCallbackPayload K Unmarshal Marshal task =
      { TaskId := task.TaskID
        Model :=
          if task.Properties.OriginModelName = "" then task.Properties.UpstreamModelName
          else task.Properties.OriginModelName
        State := mapStatusToState K task.Status
        Progress := task.Progress
        Result :=
          if task.Status = K.TaskStatusSuccess then
            match Unmarshal task.Data with
            | some (p :: m) => some (p :: m)
            | _ =>
              if HasPrefix task.FailReason "http" = true then
                some [("resultUrls", JsonValue.array [JsonValue.string task.FailReason])]
              else none
          else none
        ResultJson :=
          if task.Status = K.TaskStatusSuccess then
            match Unmarshal task.Data with
            | some (p :: m) => (Marshal (p :: m)).getD ""
            | _ =>
              if HasPrefix task.FailReason "http" = true then
                (Marshal
                  [("resultUrls", JsonValue.array [JsonValue.string task.FailReason])]).getD ""
              else ""
          else ""
        Error :=
          if task.Status = K.TaskStatusSuccess then none
          else if task.Status = K.TaskStatusFailure then
            some { Code := "task_failed", Message := task.FailReason }
          else none
        Param := task.Properties.Input
        FailCode :=
          if task.Status = K.TaskStatusSuccess then ""
          else if task.Status = K.TaskStatusFailure then "task_failed"
          else ""
        FailMsg :=
          if task.Status = K.TaskStatusSuccess then ""
          else if task.Status = K.TaskStatusFailure then task.FailReason
          else ""
        CostTime :=
          if task.Status = K.TaskStatusSuccess then wrapInt64 (task.FinishTime - task.CreatedAt)
          else if task.Status = K.TaskStatusFailure then
            wrapInt64 (task.FinishTime - task.CreatedAt)
          else 0
        CreatedAt := task.CreatedAt
        CompletedAt :=
          if task.Status = K.TaskStatusSuccess then task.FinishTime
          else if task.Status = K.TaskStatusFailure then task.FinishTime
          else 0 } := by
  have hne : HasPrefix task.FailReason "http" = true → task.FailReason ≠ "" :=
    HasPrefix_ne_empty _
  by_cases hi : task.Properties.Input = ""
  · by_cases hs : task.Status = K.TaskStatusSuccess
    · by_cases hp : HasPrefix task.FailReason "http" = true
      · rcases hd : Unmarshal task.Data with _ | m
        · rcases hj : Marshal
            [("resultUrls", JsonValue.array [JsonValue.string task.FailReason])] with _ | j <;>
            simp [buildCallbackPayload, hi, hs, hd, hj, resultEmpty, hp, hne]
        · cases m with
          | nil =>
            rcases hj : Marshal
              [("resultUrls", JsonValue.array [JsonValue.string task.FailReason])] with _ | j <;>
              simp [buildCallbackPayload, hi, hs, hd, hj, resultEmpty, hp, hne]
          | cons q m =>
            rcases hj : Marshal (q :: m) with _ | j <;>
              simp [buildCallbackPayload, hi, hs, hd, hj, resultEmpty, hp, hne]
      · rcases hd : Unmarshal task.Data with _ | m
        · simp [buildCallbackPayload, hi, hs, hd, resultEmpty, hp]
        · cases m with
          | nil => simp [buildCallbackPayload, hi, hs, hd, resultEmpty, hp]
          | cons q m =>
            rcases hj : Marshal (q :: m) with _ | j <;>
              simp [buildCallbackPayload, hi, hs, hd, hj, resultEmpty, hp]
    · by_cases hf : task.Status = K.TaskStatusFailure
      · simp only [buildCallbackPayload, if_neg hs, if_pos hf]
        simp [hi]
      · simp only [buildCallbackPayload, if_neg hs, if_neg hf]
        simp [hi]
  · by_cases hs : task.Status = K.TaskStatusSuccess
    · by_cases hp : HasPrefix task.FailReason "http" = true
      · rcases hd : Unmarshal task.Data with _ | m
        · rcases hj : Marshal
            [("resultUrls", JsonValue.array [JsonValue.string task.FailReason])] with _ | j <;>
            simp [buildCallbackPayload, hi, hs, hd, hj, resultEmpty, hp, hne]
        · cases m with
          | nil =>
            rcases hj : Marshal
              [("resultUrls", JsonValue.array [JsonValue.string task.FailReason])] with _ | j <;>
              simp [buildCallbackPayload, hi, hs, hd, hj, resultEmpty, hp, hne]
          | cons q m =>
            rcases hj : Marshal (q :: m) with _ | j <;>
              simp [buildCallbackPayload, hi, hs, hd, hj, resultEmpty, hp, hne]
      · rcases hd : Unmarshal task.Data with _ | m
        · simp [buildCallbackPayload, hi, hs, hd, resultEmpty, hp]
        · cases m with
          | nil => simp [buildCallbackPayload, hi, hs, hd, resultEmpty, hp]
          | cons q m =>
            rcases hj : Marshal (q :: m) with _ | j <;>
              simp [buildCallbackPayload, hi, hs, hd, hj, resultEmpty, hp]
    · by_cases hf : task.Status = K.TaskStatusFailure
      · simp only [buildCallbackPayload, if_neg hs, if_pos hf]
        simp [hi]
      · simp only [buildCallbackPayload, if_neg hs, if_neg hf]
        simp [hi]

/-- The view of `convertTaskToUnifiedFormat` in closed form, field by field. -/
theorem convertTaskToUnifiedFormat_eq (K : StatusNames) (Unmarshal : String → Option JsonMap)
    (task : Task) :
    convertTaskToUnifiedFormat K Unmarshal task =
      { TaskId := task.TaskID
        Model :=
          if task.Properties.OriginModelName = "" then task.Properties.UpstreamModelName
          else task.Properties.OriginModelName
        State := mapTaskStatusToState K task.Status
        Progress := task.Progress
        Result :=
          if task.Status = K.TaskStatusSuccess then
            match Unmarshal task.Data with
            | some (p :: m) => some (p :: m)
            | _ =>
              if HasPrefix task.FailReason "http" = true then
                some [("resultUrls", JsonValue.array [JsonValue.string task.FailReason])]
              else none
          else none
        Error :=
          if task.Status = K.TaskStatusSuccess then none
          else if task.Status = K.TaskStatusFailure then
            some { Code := "task_failed", Message := task.FailReason }
          else none
        CreatedAt := task.CreatedAt
        CompletedAt :=
          if task.Status = K.TaskStatusSuccess then task.FinishTime
          else if task.Status = K.TaskStatusFailure then task.FinishTime
          else 0 } := by
  have hne : HasPrefix task.FailReason "http" = true → task.FailReason ≠ "" :=
    HasPrefix_ne_empty _
  by_cases hm : task.Properties.OriginModelName = "" <;>
  by_cases hs : task.Status = K.TaskStatusSuccess
  all_goals
    first
    | (by_cases hf : task.Status = K.TaskStatusFailure
       · simp only [convertTaskToUnifiedFormat, if_neg hs, if_pos hf]
         simp [hm]
       · simp only [convertTaskToUnifiedFormat, if_neg hs, if_neg hf]
         simp [hm])
    | (by_cases hp : HasPrefix task.FailReason "http" = true
       all_goals
         rcases hd : Unmarshal task.Data with _ | m
         · simp [convertTaskToUnifiedFormat, hm, hs, hd, resultEmpty, hp, hne]
         · cases m <;> simp [convertTaskToUnifiedFormat, hm, hs, hd, resultEmpty, hp, hne])

/-- On Success and Failure the dispatcher's state equals the normaliser's state. -/
theorem mapStatusToState_terminal (K : StatusNames) (hK : K.Distinct) (status : String)
    (h : status = K.TaskStatusSuccess ∨ status = K.TaskStatusFailure) :
    mapStatusToState K status = mapTaskStatusToState K status := by
  simp only [StatusNames.Distinct, List.nodup_cons, List.mem_cons, List.mem_singleton,
    not_or, List.not_mem_nil, not_false_eq_true, List.nodup_nil, and_true] at hK
  obtain ⟨⟨-, -, -, h15, h16⟩, ⟨-, -, h25, h26⟩, ⟨-, h35, h36⟩, ⟨h45, h46⟩, h56⟩ := hK
  rcases h with h | h <;> subst h
  · simp [mapStatusToState, mapTaskStatusToState, Ne.symm h15, Ne.symm h25, Ne.symm h35,
      Ne.symm h45]
  · simp [mapStatusToState, mapTaskStatusToState, Ne.symm h16, Ne.symm h26, Ne.symm h36,
      Ne.symm h46, Ne.symm h56]

/-- Payload and view, for the repaired body of `buildCallbackPayload` (the source does
not compile as written): for a task in a terminal status (Success or Failure) the
payload and the view of `convertTaskToUnifiedFormat` agree on every shared field: task
id, model (`OriginModelName`, or `UpstreamModelName` when that is empty), state,
progress, result, error code and message, creation time and completion time. -/
theorem buildCallbackPayload_agrees_with_view (K : StatusNames)
    (Unmarshal : String → Option JsonMap) (Marshal : JsonMap → Option String) (task : Task)
    (hK : K.Distinct)
    (hterminal : task.Status = K.TaskStatusSuccess ∨ task.Status = K.TaskStatusFailure) :
    (buildCallbackPayload K Unmarshal Marshal task).TaskId
        = (convertTaskToUnifiedFormat K Unmarshal task).TaskId
    ∧ (buildCallbackPayload K Unmarshal Marshal task).Model
        = (convertTaskToUnifiedFormat K Unmarshal task).Model
    ∧ (buildCallbackPayload K Unmarshal Marshal task).Model
        = (if task.Properties.OriginModelName = "" then task.Properties.UpstreamModelName
            else task.Properties.OriginModelName)
    ∧ (buildCallbackPayload K Unmarshal Marshal task).State
        = (convertTaskToUnifiedFormat K Unmarshal task).State
    ∧ (buildCallbackPayload K Unmarshal Marshal task).Progress
        = (convertTaskToUnifiedFormat K Unmarshal task).Progress
    ∧ (buildCallbackPayload K Unmarshal Marshal task).Result
        = (convertTaskToUnifiedFormat K Unmarshal task).Result
    ∧ (buildCallbackPayload K Unmarshal Marshal task).Error.map (fun e => (e.Code, e.Message))
        = (convertTaskToUnifiedFormat K Unmarshal task).Error.map
            (fun e => (e.Code, e.Message))
    ∧ (buildCallbackPayload K Unmarshal Marshal task).CreatedAt
        = (convertTaskToUnifiedFormat K Unmarshal task).CreatedAt
    ∧ (buildCallbackPayload K Unmarshal Marshal task).CompletedAt
        = (convertTaskToUnifiedFormat K Unmarshal task).CompletedAt := by
  have hstate := mapStatusToState_terminal K hK task.Status hterminal
  rw [buildCallbackPayload_eq, convertTaskToUnifiedFormat_eq]
  refine ⟨rfl, rfl, rfl, hstate, rfl, rfl, ?_, rfl, rfl⟩
  simp only []
  split_ifs <;> rfl

/-- The agreement of payload and view at the sample task, which finished with success,
under the status names of the upstream project. -/
theorem buildCallbackPayload_agrees_with_view_witness :
    (buildCallbackPayload upstreamStatus unmarshalSample marshalSample sampleTask).State
        = (convertTaskToUnifiedFormat upstreamStatus unmarshalSample sampleTask).State
    ∧ (buildCallbackPayload upstreamStatus unmarshalSample marshalSample sampleTask).Result
        = (convertTaskToUnifiedFormat upstreamStatus unmarshalSample sampleTask).Result :=
  ⟨(buildCallbackPayload_agrees_with_view upstreamStatus unmarshalSample marshalSample
      sampleTask (by decide) (Or.inl (by decide))).2.2.2.1,
   (buildCallbackPayload_agrees_with_view upstreamStatus unmarshalSample marshalSample
      sampleTask (by decide) (Or.inl (by decide))).2.2.2.2.2.1⟩

theorem wrapInt64_of_range (x : Int) (h1 : -(2 ^ 63) ≤ x) (h2 : x < 2 ^ 63) :
    wrapInt64 x = x := by
  unfold wrapInt64
  rw [Int.emod_eq_of_lt (by omega) (by omega)]
  omega

theorem marshalSample_total (m : JsonMap) :
    ∃ j, marshalSample m = some j ∧ j ≠ "" := by
  refine ⟨_, rfl, ?_⟩
  intro h
  have := congrArg String.data h
  simp at this

/-- Enrichment fields, for the repaired body of `buildCallbackPayload` (the source does
not compile as written). For every task in a terminal status it sets `CostTime` to
the `int64` difference `FinishTime - CreatedAt` (the plain difference whenever that fits
in 64 bits) and `Param` to `Properties.Input`. Provided the serialiser does not fail and
never yields the empty text, `ResultJson` is present exactly when `Result` is populated,
and is then the serialisation of that `Result`, the synthesised `resultUrls` map
included. For `Status = Failure`, `FailCode` is `task_failed` and `FailMsg` is `FailReason`,
as in `Error`. For a non-terminal task `CostTime`, `ResultJson`, `FailCode` and `FailMsg`
are all unset. -/
theorem buildCallbackPayload_enrichment (K : StatusNames)
    (Unmarshal : String → Option JsonMap) (Marshal : JsonMap → Option String) (task : Task)
    (hK : K.Distinct) :
    ((task.Status = K.TaskStatusSuccess ∨ task.Status = K.TaskStatusFailure) →
      (buildCallbackPayload K Unmarshal Marshal task).CostTime
          = wrapInt64 (task.FinishTime - task.CreatedAt)
      ∧ (-(2 ^ 63) ≤ task.FinishTime - task.CreatedAt →
          task.FinishTime - task.CreatedAt < 2 ^ 63 →
          (buildCallbackPayload K Unmarshal Marshal task).CostTime
            = task.FinishTime - task.CreatedAt)
      ∧ (buildCallbackPayload K Unmarshal Marshal task).Param = task.Properties.Input
      ∧ ((∀ m : JsonMap, ∃ j, Marshal m = some j ∧ j ≠ "") →
          (((buildCallbackPayload K Unmarshal Marshal task).ResultJson ≠ ""
              ↔ (buildCallbackPayload K Unmarshal Marshal task).Result.isSome = true)
            ∧ ∀ result : JsonMap,
                (buildCallbackPayload K Unmarshal Marshal task).Result = some result →
                Marshal result
                  = some (buildCallbackPayload K Unmarshal Marshal task).ResultJson)))
    ∧ (task.Status = K.TaskStatusSuccess →
        HasPrefix task.FailReason "http" = true →
        (Unmarshal task.Data = none ∨ Unmarshal task.Data = some []) →
        (buildCallbackPayload K Unmarshal Marshal task).Result
            = some [("resultUrls", JsonValue.array [JsonValue.string task.FailReason])]
        ∧ (buildCallbackPayload K Unmarshal Marshal task).ResultJson
            = (Marshal
                [("resultUrls", JsonValue.array [JsonValue.string task.FailReason])]).getD "")
    ∧ (task.Status = K.TaskStatusFailure →
        (buildCallbackPayload K Unmarshal Marshal task).FailCode = "task_failed"
        ∧ (buildCallbackPayload K Unmarshal Marshal task).FailMsg = task.FailReason
        ∧ (buildCallbackPayload K Unmarshal Marshal task).Error
            = some { Code := "task_failed", Message := task.FailReason })
    ∧ (task.Status ≠ K.TaskStatusSuccess → task.Status ≠ K.TaskStatusFailure →
        (buildCallbackPayload K Unmarshal Marshal task).CostTime = 0
        ∧ (buildCallbackPayload K Unmarshal Marshal task).ResultJson = ""
        ∧ (buildCallbackPayload K Unmarshal Marshal task).FailCode = ""
        ∧ (buildCallbackPayload K Unmarshal Marshal task).FailMsg = "") := by
  simp only [StatusNames.Distinct, List.nodup_cons, List.mem_cons, List.mem_singleton,
    not_or, List.not_mem_nil, not_false_eq_true, List.nodup_nil, and_true] at hK
  obtain ⟨-, -, -, -, h56⟩ := hK
  rw [buildCallbackPayload_eq]
  simp only []
  refine ⟨?_, ?_, ?_, ?_⟩
  · intro hterminal
    have hcost : (if task.Status = K.TaskStatusSuccess then
          wrapInt64 (task.FinishTime - task.CreatedAt)
        else if task.Status = K.TaskStatusFailure then
          wrapInt64 (task.FinishTime - task.CreatedAt)
        else 0) = wrapInt64 (task.FinishTime - task.CreatedAt) := by
      rcases hterminal with h | h
      · rw [if_pos h]
      · by_cases h1 : task.Status = K.TaskStatusSuccess
        · rw [if_pos h1]
        · rw [if_neg h1, if_pos h]
    refine ⟨hcost, ?_, trivial, ?_⟩
    · intro h1 h2
      rw [hcost, wrapInt64_of_range _ h1 h2]
    · intro hM
      by_cases hs : task.Status = K.TaskStatusSuccess
      · simp only [if_pos hs]
        rcases hd : Unmarshal task.Data with _ | m
        · by_cases hp : HasPrefix task.FailReason "http" = true
          · obtain ⟨j, hj, hjne⟩ :=
              hM [("resultUrls", JsonValue.array [JsonValue.string task.FailReason])]
            simp [hp, hj, hjne]
          · simp [hp]
        · cases m with
          | nil =>
            by_cases hp : HasPrefix task.FailReason "http" = true
            · obtain ⟨j, hj, hjne⟩ :=
                hM [("resultUrls", JsonValue.array [JsonValue.string task.FailReason])]
              simp [hp, hj, hjne]
            · simp [hp]
          | cons q m =>
            obtain ⟨j, hj, hjne⟩ := hM (q :: m)
            simp [hj, hjne]
      · simp [if_neg hs]
  · intro hs hp hd
    rw [if_pos hs, if_pos hs]
    rcases hd with hd | hd <;> rw [hd] <;> simp [hp]
  · intro hf
    have hs : ¬ task.Status = K.TaskStatusSuccess := by rw [hf]; exact Ne.symm h56
    simp [hs, hf, Ne.symm h56]
  · intro hs hf
    simp [hs, hf]

/-- The enrichment fields at the sample task (finished with success, result in `Data`)
with the sample serialiser: its cost time is 600 seconds and its `ResultJson` is the
serialised result. -/
theorem buildCallbackPayload_enrichment_witness :
    (buildCallbackPayload upstreamStatus unmarshalSample marshalSample sampleTask).CostTime
        = sampleTask.FinishTime - sampleTask.CreatedAt
    ∧ (((buildCallbackPayload upstreamStatus unmarshalSample marshalSample
            sampleTask).ResultJson ≠ ""
          ↔ (buildCallbackPayload upstreamStatus unmarshalSample marshalSample
            sampleTask).Result.isSome = true)
        ∧ ∀ result : JsonMap,
            (buildCallbackPayload upstreamStatus unmarshalSample marshalSample
              sampleTask).Result = some result →
            marshalSample result
              = some (buildCallbackPayload upstreamStatus unmarshalSample marshalSample
                  sampleTask).ResultJson) :=
  ⟨((buildCallbackPayload_enrichment upstreamStatus unmarshalSample marshalSample sampleTask
      (by decide)).1 (Or.inl (by decide))).2.1 (by decide) (by decide),
   ((buildCallbackPayload_enrichment upstreamStatus unmarshalSample marshalSample sampleTask
      (by decide)).1 (Or.inl (by decide))).2.2.2 marshalSample_total⟩

/-! ## The dispatcher: short-circuits and back-off -/

/-- Claim C16. If the task's `CallBackUrl` is empty or `isValidCallbackURL` rejects it,
`TriggerTaskCallback` changes nothing: no delivery attempt, no sleep, and the store row
is left as it was, in particular `CallbackStatus`, `CallbackRetryCount` and
`CallbackTime`. -/
theorem TriggerTaskCallback_noop (env : Env) (task : Task) (w : World)
    (h : task.CallBackUrl = "" ∨ isValidCallbackURL env.urlParse task.CallBackUrl = false) :
    TriggerTaskCallback env task w = w
    ∧ (TriggerTaskCallback env task w).attempts = w.attempts
    ∧ (TriggerTaskCallback env task w).row.CallbackStatus = w.row.CallbackStatus
    ∧ (TriggerTaskCallback env task w).row.CallbackRetryCount = w.row.CallbackRetryCount
    ∧ (TriggerTaskCallback env task w).row.CallbackTime = w.row.CallbackTime := by
  have hw : TriggerTaskCallback env task w = w := by
    unfold TriggerTaskCallback
    rcases h with h | h
    · rw [if_pos h]
    · by_cases h0 : task.CallBackUrl = ""
      · rw [if_pos h0]
      · rw [if_neg h0, if_pos (by simp [h])]
  rw [hw]
  exact ⟨rfl, rfl, rfl, rfl, rfl⟩

/-- Witness for claim C16: the sample task with its callback URL replaced by a loopback
address, against a network that would answer 200. -/
theorem TriggerTaskCallback_noop_witness :
    TriggerTaskCallback (sampleEnv (fun _ => some 200))
        { sampleTask with CallBackUrl := "http://127.0.0.1/hook" }
        (initialWorld { sampleTask with CallBackUrl := "http://127.0.0.1/hook" })
      = initialWorld { sampleTask with CallBackUrl := "http://127.0.0.1/hook" } :=
  (TriggerTaskCallback_noop (sampleEnv (fun _ => some 200))
    { sampleTask with CallBackUrl := "http://127.0.0.1/hook" }
    (initialWorld { sampleTask with CallBackUrl := "http://127.0.0.1/hook" })
    (Or.inr (by decide))).1

/-- Claim C17. After a failed attempt with index `i` that is not the last (`i < 2`), the
loop sleeps `2 ^ i` seconds and then goes on with attempt `i + 1`; after the failed last
attempt and after a successful attempt it does not sleep. So a dispatch whose first
attempt succeeds does not wait, one that fails once and then succeeds waits 1 second,
and one whose first two attempts fail waits 1 second and then 2 seconds, 3 in total,
whether the third attempt succeeds or fails. -/
theorem TriggerTaskCallback_backoff :
    (∀ (env : Env) (task : Task) (payload : TaskCallbackPayload) (w : World) (i : Nat),
      i < 2 → sendCallback env i task.CallBackUrl payload = false →
      retryLoop env task payload 3 i w =
        retryLoop env task payload 3 (i + 1)
          { attempts := w.attempts + 1
            row := { w.row with CallbackRetryCount := (i : Int) + 1 }
            sleeps := w.sleeps ++ [2 ^ i] })
    ∧ (∀ (env : Env) (task : Task) (payload : TaskCallbackPayload) (w : World),
        sendCallback env 2 task.CallBackUrl payload = false →
        (retryLoop env task payload 3 2 w).sleeps = w.sleeps)
    ∧ (∀ (env : Env) (task : Task) (payload : TaskCallbackPayload) (w : World) (i : Nat),
        i < 3 → sendCallback env i task.CallBackUrl payload = true →
        (retryLoop env task payload 3 i w).sleeps = w.sleeps)
    ∧ (∀ (env : Env) (task : Task) (w : World),
        task.CallBackUrl ≠ "" →
        isValidCallbackURL env.urlParse task.CallBackUrl = true →
        (sendCallback env 0 task.CallBackUrl
            (buildCallbackPayload env.K env.Unmarshal env.Marshal task) = true →
          (TriggerTaskCallback env task w).sleeps = w.sleeps)
        ∧ (sendCallback env 0 task.CallBackUrl
            (buildCallbackPayload env.K env.Unmarshal env.Marshal task) = false →
          sendCallback env 1 task.CallBackUrl
            (buildCallbackPayload env.K env.Unmarshal env.Marshal task) = true →
          (TriggerTaskCallback env task w).sleeps = w.sleeps ++ [1])
        ∧ (sendCallback env 0 task.CallBackUrl
            (buildCallbackPayload env.K env.Unmarshal env.Marshal task) = false →
          sendCallback env 1 task.CallBackUrl
            (buildCallbackPayload env.K env.Unmarshal env.Marshal task) = false →
          (TriggerTaskCallback env task w).sleeps = w.sleeps ++ [1, 2]))
    ∧ ((TriggerTaskCallback (sampleEnv (fun _ => some 500)) sampleTask
          (initialWorld sampleTask)).sleeps = [1, 2]
      ∧ (TriggerTaskCallback (sampleEnv (fun _ => some 500)) sampleTask
          (initialWorld sampleTask)).sleeps.sum = 3) := by
  have key : ∀ (env : Env) (task : Task) (w : World), task.CallBackUrl ≠ "" →
      isValidCallbackURL env.urlParse task.CallBackUrl = true →
      TriggerTaskCallback env task w =
        retryLoop env task (buildCallbackPayload env.K env.Unmarshal env.Marshal task) 3 0 w := by
    intro env task w h1 h2
    simp [TriggerTaskCallback, h1, h2]
  have hvalid : isValidCallbackURL urlParseSample "https://hooks.example.com/cb" = true := by
    decide
  have hall : (TriggerTaskCallback (sampleEnv (fun _ => some 500)) sampleTask
      (initialWorld sampleTask)).sleeps = [1, 2] := by
    rw [key _ _ _ (by decide) hvalid, retryLoop_three]
    simp [sendCallback, sampleEnv, initialWorld]
  refine ⟨?_, ?_, ?_, ?_, hall, by rw [hall]; rfl⟩
  · intro env task payload w i hi hfail
    rw [retryLoop_failure env task payload 3 i w (by omega) hfail]
    have h1 : i < 3 - 1 := by omega
    rw [if_pos h1, Nat.one_shiftLeft]
  · intro env task payload w hfail
    rw [retryLoop_failure env task payload 3 2 w (by decide) hfail,
      retryLoop_exhausted _ _ _ _ _ _ (by decide)]
    simp
  · intro env task payload w i hi hok
    rw [retryLoop_success env task payload 3 i w hi hok]
  · intro env task w h1 h2
    rw [key env task w h1 h2, retryLoop_three]
    generalize buildCallbackPayload env.K env.Unmarshal env.Marshal task = payload
    refine ⟨?_, ?_, ?_⟩
    · intro h0
      simp [h0]
    · intro h0 h1
      simp [h0, h1]
    · intro h0 h1
      by_cases h2 : sendCallback env 2 task.CallBackUrl payload = true
      · simp [h0, h1, h2]
      · simp [h0, h1, h2]

/-- Witness for claim C17: against a network that answers 500 and then 200 the sample
dispatch waits 1 second in all. -/
theorem TriggerTaskCallback_backoff_witness :
    (TriggerTaskCallback (sampleEnv (fun i => if i = 0 then some 500 else some 200))
        sampleTask (initialWorld sampleTask)).sleeps
      = (initialWorld sampleTask).sleeps ++ [1] :=
  (TriggerTaskCallback_backoff.2.2.2.1
    (sampleEnv (fun i => if i = 0 then some 500 else some 200)) sampleTask
    (initialWorld sampleTask) (by decide) (by decide)).2.1
    (by simp [sendCallback, sampleEnv]) (by simp [sendCallback, sampleEnv])

/-! ## The routing table and input admission -/

theorem lookup_eq_none_iff (table : MappingTable) (k : String) :
    table.lookup k = none ↔ k ∉ table.map Prod.fst := by
  induction table with
  | nil => simp
  | cons p t ih =>
    obtain ⟨a, b⟩ := p
    by_cases h : k = a
    · subst h; simp [List.lookup]
    · have h2 : (k == a) = false := by simpa using h
      simp [List.lookup, h2, ih, h]

theorem lookup_of_mem (table : MappingTable) (hnd : (table.map Prod.fst).Nodup)
    (k : String) (v : ModelMappingConfig) (h : (k, v) ∈ table) : table.lookup k = some v := by
  induction table with
  | nil => simp at h
  | cons p t ih =>
    obtain ⟨a, b⟩ := p
    simp only [List.map_cons, List.nodup_cons] at hnd
    rcases List.mem_cons.1 h with h1 | h1
    · cases h1; simp [List.lookup]
    · have hne : k ≠ a := by
        intro hka
        exact hnd.1 (List.mem_map.2 ⟨(k, v), h1, hka⟩)
      have h2 : (k == a) = false := by simpa using hne
      simp [List.lookup, h2, ih hnd.2 h1]

theorem GetAllSupportedModels_table (C : Constants) :
    GetAllSupportedModels (modelMappingTable C) = registeredModels := rfl

/-- Claim C12. `GetModelMapping` succeeds for exactly the 22 registered model names and
fails with the error `unsupported model: <name>` for every other string, among them the
empty string and `Kling-V1`; `GetAllSupportedModels` returns, in whatever order, exactly
these 22 names, each once, so a name is enumerated if and only if `GetModelMapping`
resolves it. -/
theorem GetModelMapping_registered (C : Constants) :
    registeredModels.length = 22
    ∧ (∀ model : String, model ∈ registeredModels →
        ∃ config, (GetModelMapping (modelMappingTable C) model).1 = Except.ok config)
    ∧ (∀ model : String, model ∉ registeredModels →
        (GetModelMapping (modelMappingTable C) model).1
          = Except.error ("unsupported model: " ++ model))
    ∧ (GetModelMapping (modelMappingTable C) "").1 = Except.error "unsupported model: "
    ∧ (GetModelMapping (modelMappingTable C) "Kling-V1").1
        = Except.error "unsupported model: Kling-V1"
    ∧ (∀ enumeration : List String,
        enumeration.Perm (GetAllSupportedModels (modelMappingTable C)) →
        enumeration.Nodup
        ∧ enumeration.length = 22
        ∧ (∀ model : String, model ∈ enumeration ↔ model ∈ registeredModels)
        ∧ (∀ model : String, model ∈ enumeration ↔
            ∃ config, (GetModelMapping (modelMappingTable C) model).1 = Except.ok config)) := by
  have hin : ∀ model : String, model ∈ registeredModels →
      ∃ config, (GetModelMapping (modelMappingTable C) model).1 = Except.ok config := by
    intro model hmem
    cases hl : (modelMappingTable C).lookup model with
    | none =>
      rw [lookup_eq_none_iff] at hl
      exact absurd hmem hl
    | some config => simp [GetModelMapping, hl]
  have hout : ∀ model : String, model ∉ registeredModels →
      (GetModelMapping (modelMappingTable C) model).1
        = Except.error ("unsupported model: " ++ model) := by
    intro model hmem
    have hl : (modelMappingTable C).lookup model = none :=
      (lookup_eq_none_iff _ _).2 hmem
    simp [GetModelMapping, hl]
  refine ⟨rfl, hin, hout, hout "" (by decide), hout "Kling-V1" (by decide), ?_⟩
  intro enumeration hperm
  rw [GetAllSupportedModels_table] at hperm
  have hmem : ∀ model : String, model ∈ enumeration ↔ model ∈ registeredModels :=
    fun model => hperm.mem_iff
  refine ⟨hperm.nodup_iff.2 (by decide), by rw [hperm.length_eq]; rfl, hmem, ?_⟩
  intro model
  rw [hmem]
  constructor
  · exact hin model
  · rintro ⟨config, hc⟩
    by_contra hnot
    rw [hout model hnot] at hc
    cases hc

/-- Witness for claim C12: `kling-v1` is registered and resolves; `Kling-V1` is not. -/
theorem GetModelMapping_registered_witness :
    (∃ config, (GetModelMapping (modelMappingTable upstreamConstants) "kling-v1").1
        = Except.ok config)
    ∧ (GetModelMapping (modelMappingTable upstreamConstants) "Kling-V1").1
        = Except.error ("unsupported model: " ++ "Kling-V1") :=
  ⟨(GetModelMapping_registered upstreamConstants).2.1 "kling-v1" (by decide),
   (GetModelMapping_registered upstreamConstants).2.2.1 "Kling-V1" (by decide)⟩

/-- Claim C13. For every registered model `GetModelMapping` returns the action and the
channel type of the table entry unchanged; the returned platform is the entry's own
platform when the entry has one (`suno_music`, `suno_lyrics`) and otherwise, for a
positive channel type, the decimal text of the channel type; the call leaves the
routing table as it was, so a lookup after it returns what it would have returned
before. -/
theorem GetModelMapping_entry (C : Constants) :
    (∀ (model : String) (entry : ModelMappingConfig),
      (model, entry) ∈ modelMappingTable C →
      ∃ config, (GetModelMapping (modelMappingTable C) model).1 = Except.ok config
        ∧ config.Action = entry.Action
        ∧ config.ChannelType = entry.ChannelType
        ∧ (entry.Platform ≠ "" → config.Platform = entry.Platform)
        ∧ (entry.Platform = "" → entry.ChannelType > 0 →
            config.Platform = toString entry.ChannelType))
    ∧ (GetModelMapping (modelMappingTable C) "suno_music").1
        = Except.ok
            { Platform := C.TaskPlatformSuno, Action := C.SunoActionMusic, ChannelType := 0 }
    ∧ (GetModelMapping (modelMappingTable C) "suno_lyrics").1
        = Except.ok
            { Platform := C.TaskPlatformSuno, Action := C.SunoActionLyrics, ChannelType := 0 }
    ∧ (∀ (table : MappingTable) (model other : String),
        (GetModelMapping table model).2 = table
        ∧ GetModelMapping (GetModelMapping table model).2 other = GetModelMapping table other) := by
  have hframe : ∀ (table : MappingTable) (model : String),
      (GetModelMapping table model).2 = table := by
    intro table model
    unfold GetModelMapping
    split <;> rfl
  refine ⟨?_, ?_, ?_, ?_⟩
  · intro model entry hmem
    have hnd : ((modelMappingTable C).map Prod.fst).Nodup := by
      show (GetAllSupportedModels (modelMappingTable C)).Nodup
      rw [GetAllSupportedModels_table]
      decide
    have hl := lookup_of_mem _ hnd model entry hmem
    by_cases hp : entry.Platform = "" ∧ entry.ChannelType > 0
    · refine ⟨{ entry with Platform := Itoa entry.ChannelType }, ?_, rfl, rfl, ?_, ?_⟩
      · simp [GetModelMapping, hl, hp]
      · intro hne; exact absurd hp.1 hne
      · intro _ _; rfl
    · refine ⟨entry, ?_, rfl, rfl, ?_, ?_⟩
      · simp only [GetModelMapping, hl, if_neg hp]
      · intro _; rfl
      · intro h1 h2; exact absurd ⟨h1, h2⟩ hp
  · by_cases hp : C.TaskPlatformSuno = "" <;>
      simp [GetModelMapping, modelMappingTable, List.lookup, hp]
  · by_cases hp : C.TaskPlatformSuno = "" <;>
      simp [GetModelMapping, modelMappingTable, List.lookup, hp]
  · intro table model other
    exact ⟨hframe table model, by rw [hframe table model]⟩

/-- Witness for claim C13: the entry of `kling-v1` under the sample constants, whose
platform is derived from the channel type 50. -/
theorem GetModelMapping_entry_witness :
    ∃ config, (GetModelMapping (modelMappingTable upstreamConstants) "kling-v1").1
        = Except.ok config
      ∧ config.Action = "textGenerate"
      ∧ config.ChannelType = 50
      ∧ (("" : String) ≠ "" → config.Platform = "")
      ∧ (("" : String) = "" → (50 : Int) > 0 → config.Platform = toString (50 : Int)) :=
  (GetModelMapping_entry upstreamConstants).1 "kling-v1"
    { Platform := "", Action := "textGenerate", ChannelType := 50 } (by decide)

/-- Claim C14, as the code behaves. For a model name that `GetModelMapping` rejects,
`ParseInputParameters` fails with the same error when the input is a map, but for the
nil input it returns an empty map and no error: the nil check returns before the
model is looked up. -/
theorem ParseInputParameters_unsupported :
    (∀ (table : MappingTable) (model : String) (input : JsonMap) (err : String),
      (GetModelMapping table model).1 = Except.error err →
      ParseInputParameters table model (some input) = Except.error err)
    ∧ (∀ (table : MappingTable) (model : String),
        ParseInputParameters table model none = Except.ok (some []))
    ∧ (GetModelMapping (modelMappingTable upstreamConstants) "no-such-model").1
        = Except.error "unsupported model: no-such-model"
    ∧ ParseInputParameters (modelMappingTable upstreamConstants) "no-such-model" none
        = Except.ok (some []) := by
  refine ⟨?_, fun _ _ => rfl, by rfl, by rfl⟩
  intro table model input err h
  simp [ParseInputParameters, h]

/-- Witness for claim C14: a map input for the unregistered name `no-such-model` is refused
with the error of `GetModelMapping`. -/
theorem ParseInputParameters_unsupported_witness :
    ParseInputParameters (modelMappingTable upstreamConstants) "no-such-model"
        (some [("prompt", JsonValue.string "a cat")])
      = Except.error "unsupported model: no-such-model" :=
  ParseInputParameters_unsupported.1 (modelMappingTable upstreamConstants) "no-such-model"
    [("prompt", JsonValue.string "a cat")] "unsupported model: no-such-model" (by rfl)

/-- Claim C15. For every model that `GetModelMapping` resolves, `ParseInputParameters`
succeeds with a non-nil map: the empty map for a nil input, and the input itself,
unchanged, for a non-nil input. -/
theorem ParseInputParameters_routable (table : MappingTable) (model : String)
    (hroutable : ∃ config, (GetModelMapping table model).1 = Except.ok config) :
    ParseInputParameters table model none = Except.ok (some [])
    ∧ (∀ input : JsonMap,
        ParseInputParameters table model (some input) = Except.ok (some input))
    ∧ (∀ input : Option JsonMap, ∃ m : JsonMap,
        ParseInputParameters table model input = Except.ok (some m)) := by
  obtain ⟨config, hc⟩ := hroutable
  have hsome : ∀ input : JsonMap,
      ParseInputParameters table model (some input) = Except.ok (some input) := by
    intro input
    simp [ParseInputParameters, hc]
  refine ⟨rfl, hsome, ?_⟩
  intro input
  cases input with
  | none => exact ⟨[], rfl⟩
  | some m => exact ⟨m, hsome m⟩

/-- Witness for claim C15: `kling-v1` with a one-field input and with the nil input. -/
theorem ParseInputParameters_routable_witness :
    ParseInputParameters (modelMappingTable upstreamConstants) "kling-v1" none
        = Except.ok (some [])
    ∧ ParseInputParameters (modelMappingTable upstreamConstants) "kling-v1"
        (some [("prompt", JsonValue.string "a cat")])
        = Except.ok (some [("prompt", JsonValue.string "a cat")]) :=
  ⟨(ParseInputParameters_routable (modelMappingTable upstreamConstants) "kling-v1"
      ⟨_, rfl⟩).1,
   (ParseInputParameters_routable (modelMappingTable upstreamConstants) "kling-v1"
      ⟨_, rfl⟩).2.1 [("prompt", JsonValue.string "a cat")]⟩

/-! ## The batch fetch handler -/

theorem collectTaskIds_foldl (l acc : List String) :
    l.foldl
        (fun taskIds id =>
          let trimmedId := TrimSpace id
          if trimmedId ≠ "" then taskIds ++ [trimmedId] else taskIds)
        acc
      = acc ++ (l.map TrimSpace).filter (fun id => id ≠ "") := by
  induction l generalizing acc with
  | nil => simp
  | cons x xs ih =>
    simp only [List.foldl_cons, List.map_cons]
    rw [ih]
    by_cases hx : TrimSpace x = ""
    · simp [hx]
    · simp [hx]

theorem collectTaskIds_eq (taskIdsStr : String) :
    collectTaskIds (Split taskIdsStr ',') = trimmedIds taskIdsStr := by
  unfold collectTaskIds trimmedIds
  rw [collectTaskIds_foldl]
  simp

theorem trimmedIds_length_le (taskIdsStr : String) :
    (trimmedIds taskIdsStr).length ≤ (Split taskIdsStr ',').length := by
  unfold trimmedIds
  exact (List.length_filter_le _ _).trans (by simp)

theorem Split_length_pos (s : String) (sep : Char) : 0 < (Split s sep).length := by
  unfold Split
  rw [List.length_map]
  cases h : s.data with
  | nil => simp [splitAt1]
  | cons c cs =>
    simp only [splitAt1]
    split_ifs
    · simp
    · split <;> simp

/-- The handler in closed form: the three rejections and the store query. -/
theorem UnifiedTaskFetchBatch_eq (K : StatusNames) (Unmarshal : String → Option JsonMap)
    (GetByTaskIds : Int → List String → Except String (List Task))
    (userId : Int) (taskIdsStr : String) :
    UnifiedTaskFetchBatch K Unmarshal GetByTaskIds userId taskIdsStr =
      if taskIdsStr = "" then rejectBatch 400 "taskIds is required"
      else if (Split taskIdsStr ',').length > 50 then
        rejectBatch 400 "taskIds count exceeds limit (max 50)"
      else if trimmedIds taskIdsStr = [] then rejectBatch 400 "no valid taskIds provided"
      else
        match GetByTaskIds userId (trimmedIds taskIdsStr) with
        | Except.error err =>
          { status := 500
            body := { Code := 500, Message := "query tasks failed: " ++ err, Data := [] }
            storeQuery := some (trimmedIds taskIdsStr) }
        | Except.ok tasks =>
          { status := 200
            body :=
              { Code := 200
                Message := "success"
                Data := tasks.map (convertTaskToUnifiedFormat K Unmarshal) }
            storeQuery := some (trimmedIds taskIdsStr) } := by
  have hpos := Split_length_pos taskIdsStr ','
  have hne : ¬ Split taskIdsStr ',' = [] := by
    intro h
    rw [h] at hpos
    exact absurd hpos (by decide)
  unfold UnifiedTaskFetchBatch
  simp only [collectTaskIds_eq, List.length_eq_zero, if_neg hne]

/-- Claim C18 as stated fails: the string made of `a` and 50 commas leaves one id after
trimming and dropping empty segments, yet it is rejected with the limit error and no
store query, because the limit is applied to the 51 raw segments. -/
theorem UnifiedTaskFetchBatch_limit_counts_raw_segments :
    trimmedIds "a,,,,,,,,,,,,,,,,,,,,,,,,,,,,,,,,,,,,,,,,,,,,,,,,,," = ["a"]
    ∧ (Split "a,,,,,,,,,,,,,,,,,,,,,,,,,,,,,,,,,,,,,,,,,,,,,,,,,," ',').length = 51
    ∧ (UnifiedTaskFetchBatch upstreamStatus unmarshalSample storeSample 1 "a,,,,,,,,,,,,,,,,,,,,,,,,,,,,,,,,,,,,,,,,,,,,,,,,,,").status = 400
    ∧ (UnifiedTaskFetchBatch upstreamStatus unmarshalSample storeSample 1
        "a,,,,,,,,,,,,,,,,,,,,,,,,,,,,,,,,,,,,,,,,,,,,,,,,,,").body.Message = "taskIds count exceeds limit (max 50)"
    ∧ (UnifiedTaskFetchBatch upstreamStatus unmarshalSample storeSample 1
        "a,,,,,,,,,,,,,,,,,,,,,,,,,,,,,,,,,,,,,,,,,,,,,,,,,,").storeQuery = none := by
  refine ⟨by decide, by decide, by rfl, by rfl, by rfl⟩

/-- Claim C18, amended. `UnifiedTaskFetchBatch` answers with the 400 limit error exactly
when the number of comma-separated segments of `taskIds`, counted before trimming and
with empty and white-space segments included, exceeds 50, and it then makes no store
query; this covers every request that leaves more than 50 ids, such as 51 distinct
ids. A request with at most 50 segments that leaves at least one id is accepted: the
store is queried with the ids it leaves. -/
theorem UnifiedTaskFetchBatch_limit :
    (∀ (K : StatusNames) (Unmarshal : String → Option JsonMap)
        (GetByTaskIds : Int → List String → Except String (List Task))
        (userId : Int) (taskIdsStr : String),
      (((UnifiedTaskFetchBatch K Unmarshal GetByTaskIds userId taskIdsStr).status = 400
          ∧ (UnifiedTaskFetchBatch K Unmarshal GetByTaskIds userId taskIdsStr).body.Message
            = "taskIds count exceeds limit (max 50)")
        ↔ (Split taskIdsStr ',').length > 50)
      ∧ ((Split taskIdsStr ',').length > 50 →
          (UnifiedTaskFetchBatch K Unmarshal GetByTaskIds userId taskIdsStr).storeQuery = none)
      ∧ ((trimmedIds taskIdsStr).length > 50 →
          (UnifiedTaskFetchBatch K Unmarshal GetByTaskIds userId taskIdsStr).status = 400
          ∧ (UnifiedTaskFetchBatch K Unmarshal GetByTaskIds userId taskIdsStr).storeQuery
            = none)
      ∧ ((Split taskIdsStr ',').length ≤ 50 → trimmedIds taskIdsStr ≠ [] →
          (UnifiedTaskFetchBatch K Unmarshal GetByTaskIds userId taskIdsStr).storeQuery
            = some (trimmedIds taskIdsStr)))
    ∧ ((trimmedIds "t1,t2,t3,t4,t5,t6,t7,t8,t9,t10,t11,t12,t13,t14,t15,t16,t17,t18,t19,t20,t21,t22,t23,t24,t25,t26,t27,t28,t29,t30,t31,t32,t33,t34,t35,t36,t37,t38,t39,t40,t41,t42,t43,t44,t45,t46,t47,t48,t49,t50,t51").length = 51
      ∧ (UnifiedTaskFetchBatch upstreamStatus unmarshalSample storeSample 1 "t1,t2,t3,t4,t5,t6,t7,t8,t9,t10,t11,t12,t13,t14,t15,t16,t17,t18,t19,t20,t21,t22,t23,t24,t25,t26,t27,t28,t29,t30,t31,t32,t33,t34,t35,t36,t37,t38,t39,t40,t41,t42,t43,t44,t45,t46,t47,t48,t49,t50,t51").status
          = 400
      ∧ (UnifiedTaskFetchBatch upstreamStatus unmarshalSample storeSample 1
          "t1,t2,t3,t4,t5,t6,t7,t8,t9,t10,t11,t12,t13,t14,t15,t16,t17,t18,t19,t20,t21,t22,t23,t24,t25,t26,t27,t28,t29,t30,t31,t32,t33,t34,t35,t36,t37,t38,t39,t40,t41,t42,t43,t44,t45,t46,t47,t48,t49,t50,t51").storeQuery = none) := by
  refine ⟨?_, by decide, by rfl, by rfl⟩
  intro K Unmarshal GetByTaskIds userId taskIdsStr
  have hle := trimmedIds_length_le taskIdsStr
  have hover : (Split taskIdsStr ',').length > 50 →
      UnifiedTaskFetchBatch K Unmarshal GetByTaskIds userId taskIdsStr
        = rejectBatch 400 "taskIds count exceeds limit (max 50)" := by
    intro h
    have hne : taskIdsStr ≠ "" := by
      rintro rfl
      exact absurd h (by decide)
    rw [UnifiedTaskFetchBatch_eq, if_neg hne, if_pos h]
  refine ⟨⟨?_, ?_⟩, ?_, ?_, ?_⟩
  · rintro ⟨hstatus, hmsg⟩
    by_contra hnot
    rw [UnifiedTaskFetchBatch_eq, if_neg hnot] at hstatus hmsg
    by_cases h0 : taskIdsStr = ""
    · rw [if_pos h0] at hmsg
      exact absurd hmsg (by decide)
    · rw [if_neg h0] at hstatus hmsg
      by_cases h1 : trimmedIds taskIdsStr = []
      · rw [if_pos h1] at hmsg
        exact absurd hmsg (by decide)
      · rw [if_neg h1] at hstatus
        cases hq : GetByTaskIds userId (trimmedIds taskIdsStr) with
        | error err => rw [hq] at hstatus; simp at hstatus
        | ok tasks => rw [hq] at hstatus; simp at hstatus
  · intro h
    rw [hover h]
    exact ⟨rfl, rfl⟩
  · intro h
    rw [hover h]
    rfl
  · intro h
    rw [hover (by omega)]
    exact ⟨rfl, rfl⟩
  · intro h hne
    have hnot : ¬ (Split taskIdsStr ',').length > 50 := by omega
    have h0 : taskIdsStr ≠ "" := by
      rintro rfl
      exact hne (by decide)
    rw [UnifiedTaskFetchBatch_eq, if_neg h0, if_neg hnot, if_neg hne]
    cases GetByTaskIds userId (trimmedIds taskIdsStr) <;> rfl

/-- Witness for the amended claim C18: `a, ,b` has 3 segments and leaves 2 ids, which are
the store query. -/
theorem UnifiedTaskFetchBatch_limit_witness :
    (UnifiedTaskFetchBatch upstreamStatus unmarshalSample storeSample 1 "a, ,b").storeQuery
      = some (trimmedIds "a, ,b") :=
  (UnifiedTaskFetchBatch_limit.1 upstreamStatus unmarshalSample storeSample 1 "a, ,b").2.2.2
    (by decide) (by decide)

/-- Claim C19. Whenever `UnifiedTaskFetchBatch` queries the store, the id list it hands over
is the list of comma-separated segments of `taskIds`, each trimmed, without the empty
ones, in the original order and with repetitions kept; a string that leaves no id is
rejected with a 400 and no store query. `a, ,b` queries exactly `a`, `b`; `a,b,a`
queries `a`, `b`, `a`; the string ` , ,` is rejected. -/
theorem UnifiedTaskFetchBatch_query :
    (∀ (K : StatusNames) (Unmarshal : String → Option JsonMap)
        (GetByTaskIds : Int → List String → Except String (List Task))
        (userId : Int) (taskIdsStr : String),
      (∀ ids : List String,
        (UnifiedTaskFetchBatch K Unmarshal GetByTaskIds userId taskIdsStr).storeQuery = some ids →
        ids = trimmedIds taskIdsStr)
      ∧ (trimmedIds taskIdsStr = [] →
          (UnifiedTaskFetchBatch K Unmarshal GetByTaskIds userId taskIdsStr).status = 400
          ∧ (UnifiedTaskFetchBatch K Unmarshal GetByTaskIds userId taskIdsStr).storeQuery
            = none))
    ∧ (UnifiedTaskFetchBatch upstreamStatus unmarshalSample storeSample 1 "a, ,b").storeQuery
        = some ["a", "b"]
    ∧ (UnifiedTaskFetchBatch upstreamStatus unmarshalSample storeSample 1 "a,b,a").storeQuery
        = some ["a", "b", "a"]
    ∧ ((UnifiedTaskFetchBatch upstreamStatus unmarshalSample storeSample 1 " , ,").status = 400
      ∧ (UnifiedTaskFetchBatch upstreamStatus unmarshalSample storeSample 1 " , ,").storeQuery
          = none) := by
  refine ⟨?_, by rfl, by rfl, by rfl, by rfl⟩
  intro K Unmarshal GetByTaskIds userId taskIdsStr
  rw [UnifiedTaskFetchBatch_eq]
  refine ⟨?_, ?_⟩
  · intro ids hq
    split_ifs at hq with h0 h1 h2
    · exact absurd hq (by simp [rejectBatch])
    · exact absurd hq (by simp [rejectBatch])
    · exact absurd hq (by simp [rejectBatch])
    · cases hg : GetByTaskIds userId (trimmedIds taskIdsStr) with
      | error err =>
        rw [hg] at hq
        simp only [Option.some.injEq] at hq
        exact hq.symm
      | ok tasks =>
        rw [hg] at hq
        simp only [Option.some.injEq] at hq
        exact hq.symm
  · intro hempty
    split_ifs with h0 h1
    · exact ⟨rfl, rfl⟩
    · exact ⟨rfl, rfl⟩
    · exact ⟨rfl, rfl⟩

/-- Witness for claim C19: the query made for ` x ,y` is the list of its trimmed ids. -/
theorem UnifiedTaskFetchBatch_query_witness :
    ["x", "y"] = trimmedIds " x ,y" :=
  (UnifiedTaskFetchBatch_query.1 upstreamStatus unmarshalSample storeSample 1
    " x ,y").1 ["x", "y"] (by rfl)

/-! ## The callback URL guard: what the 172 rule reads -/

theorem SkipSpace_eq_dropWhile (l s : List Char) (h : SkipSpace l = some s) :
    s = l.dropWhile isSpace := by
  induction l with
  | nil => simp [SkipSpace] at h; simp [h]
  | cons c cs ih =>
    by_cases h1 : c = '\n'
    · simp [SkipSpace, h1] at h
    · by_cases h2 : isSpace c = true
      · simp only [SkipSpace, if_neg h1, h2, if_true] at h
        rw [List.dropWhile_cons_of_pos h2]
        exact ih h
      · simp only [SkipSpace, if_neg h1, h2, Bool.false_eq_true, if_false,
          Option.some.injEq] at h
        rw [List.dropWhile_cons_of_neg h2]
        exact h.symm

theorem parseDecimal_some (l : List Char) : ∀ (acc un : Nat), parseDecimal l acc = some un →
    (∀ c ∈ l, c.isDigit = true)
      ∧ un = l.foldl (fun acc c => 10 * acc + (c.toNat - 48)) acc := by
  induction l with
  | nil =>
    intro acc un h
    simp only [parseDecimal, Option.some.injEq] at h
    simp [h]
  | cons c cs ih =>
    intro acc un h
    by_cases hc : c.isDigit = true
    · simp only [parseDecimal, hc, if_true] at h
      obtain ⟨h1, h2⟩ := ih _ _ h
      refine ⟨?_, by simpa using h2⟩
      intro d hd
      rcases List.mem_cons.1 hd with hd | hd
      · rw [hd]; exact hc
      · exact h1 d hd
    · simp [parseDecimal, hc] at h

theorem takeWhile_isDigit_of_scan (body : List Char)
    (h : ∀ c ∈ body.takeWhile isScanDigit, c.isDigit = true) :
    body.takeWhile Char.isDigit = body.takeWhile isScanDigit := by
  induction body with
  | nil => rfl
  | cons c cs ih =>
    by_cases hs : isScanDigit c = true
    · have hmem : c ∈ (c :: cs).takeWhile isScanDigit := by
        rw [List.takeWhile_cons_of_pos hs]; simp
      have hd := h c hmem
      rw [List.takeWhile_cons_of_pos hs, List.takeWhile_cons_of_pos hd]
      rw [ih]
      intro d hdm
      apply h
      rw [List.takeWhile_cons_of_pos hs]
      exact List.mem_cons_of_mem _ hdm
    · have hd : ¬ c.isDigit = true := by
        intro hd
        apply hs
        simp [isScanDigit, hd]
      rw [List.takeWhile_cons_of_neg hs, List.takeWhile_cons_of_neg hd]

/-- A scan that yields a number in `[16, 31]` read the leading number of the text. -/
theorem leadingNumber_of_Sscanf_d (seg : List Char) (v : Int)
    (h : Sscanf_d (String.mk seg) = some v) (h16 : 16 ≤ v) (h31 : v ≤ 31) :
    ∃ n : Nat, leadingNumber seg = some n ∧ (n : Int) = v := by
  unfold Sscanf_d at h
  cases hsk : SkipSpace seg with
  | none => simp [hsk] at h
  | some s =>
    have hdrop := SkipSpace_eq_dropWhile seg s hsk
    cases s with
    | nil => simp [hsk] at h
    | cons c cs =>
      simp only [hsk] at h
      have hlead : leadingNumber seg =
          if ((if c = '+' ∨ c = '-' then cs else c :: cs).takeWhile Char.isDigit).isEmpty
          then none
          else some (((if c = '+' ∨ c = '-' then cs else c :: cs).takeWhile
            Char.isDigit).foldl (fun acc c => 10 * acc + (c.toNat - 48)) 0) := by
        unfold leadingNumber
        simp only [← hdrop]
      generalize (if c = '+' ∨ c = '-' then cs else c :: cs) = body at h hlead
      by_cases htok : (body.takeWhile isScanDigit).isEmpty = true
      · rw [if_pos htok] at h
        exact absurd h (by simp)
      · rw [if_neg htok] at h
        unfold ParseInt64 at h
        cases hp : parseDecimal (body.takeWhile isScanDigit) 0 with
        | none =>
          rw [hp] at h
          exact absurd h (by simp)
        | some un =>
          rw [hp] at h
          obtain ⟨hdig, hval⟩ := parseDecimal_some _ _ _ hp
          have htw := takeWhile_isDigit_of_scan _ hdig
          rw [htw, if_neg htok, ← hval] at hlead
          by_cases hneg : c = '-'
          · simp only [hneg, decide_True, if_true] at h
            by_cases hr : un ≤ 2 ^ 63
            · rw [if_pos hr] at h
              simp only [Option.some.injEq] at h
              omega
            · rw [if_neg hr] at h
              exact absurd h (by simp)
          · simp only [hneg, decide_False, Bool.false_eq_true, if_false] at h
            by_cases hr : un < 2 ^ 63
            · rw [if_pos hr] at h
              simp only [Option.some.injEq] at h
              exact ⟨un, hlead, h⟩
            · rw [if_neg hr] at h
              exact absurd h (by simp)

theorem HasPrefix_172 (host : String) (h : HasPrefix host "172." = true) :
    ∃ body, host = String.mk ('1' :: '7' :: '2' :: '.' :: body) := by
  unfold HasPrefix at h
  rw [List.isPrefixOf_iff_prefix] at h
  obtain ⟨t, ht⟩ := h
  exact ⟨t, String.ext (by rw [← ht]; rfl)⟩

theorem Split_172_second (body : List Char) :
    (Split (String.mk ('1' :: '7' :: '2' :: '.' :: body)) '.').getD 1 ""
      = String.mk (body.takeWhile (fun c => decide (c ≠ '.'))) := by
  obtain ⟨ps, hps⟩ := splitAt1_head '.' body
  have hsplit : Split (String.mk ('1' :: '7' :: '2' :: '.' :: body)) '.' =
      "172" :: String.mk (body.takeWhile (fun c => decide (c ≠ '.'))) :: ps.map String.mk := by
    simp [Split, splitAt1, hps]
  rw [hsplit]
  rfl

theorem head?_takeWhile (p : Char → Bool) (l : List Char) (c : Char)
    (h : (l.takeWhile p).head? = some c) : l.head? = some c := by
  cases l with
  | nil => simp at h
  | cons d ds =>
    by_cases hd : p d = true
    · rw [List.takeWhile_cons_of_pos hd] at h
      exact h
    · rw [List.takeWhile_cons_of_neg hd] at h
      simp at h

/-- Claim C21 as stated fails: the second segments `16abc`, `20x` and `16_` are not
entirely decimal integers, yet `Sscanf` with `%d` reads their leading digits as 16, 20
and 16 without an error, and the guard rejects `172.16abc.example.com`,
`172.20x.cdn.net` and `172.16_.0.1`. -/
theorem isValidCallbackURL_172_reads_leading_digits :
    (urlParseSample "http://172.16abc.example.com/hook"
        = some ⟨"http", "172.16abc.example.com"⟩
      ∧ (Split "172.16abc.example.com" '.').getD 1 "" = "16abc"
      ∧ "16abc".data.all Char.isDigit = false
      ∧ Sscanf_d "16abc" = some 16
      ∧ isValidCallbackURL urlParseSample "http://172.16abc.example.com/hook" = false)
    ∧ (urlParseSample "https://172.20x.cdn.net/cb" = some ⟨"https", "172.20x.cdn.net"⟩
      ∧ (Split "172.20x.cdn.net" '.').getD 1 "" = "20x"
      ∧ "20x".data.all Char.isDigit = false
      ∧ Sscanf_d "20x" = some 20
      ∧ isValidCallbackURL urlParseSample "https://172.20x.cdn.net/cb" = false)
    ∧ (urlParseSample "http://172.16_.0.1/" = some ⟨"http", "172.16_.0.1"⟩
      ∧ (Split "172.16_.0.1" '.').getD 1 "" = "16_"
      ∧ "16_".data.all Char.isDigit = false
      ∧ Sscanf_d "16_" = some 16
      ∧ isValidCallbackURL urlParseSample "http://172.16_.0.1/" = false) := by
  decide

/-- Claim C21, amended. For every URL that parses with scheme `http` or `https` and a
hostname beginning with `172.`: if the second dot-delimited segment does not start,
after optional white space and an optional sign, with a run of decimal digits whose
value lies in `[16, 31]`, `isValidCallbackURL` returns true (`172.example.com`,
`172.15abc.example.com`, `172.32x.cdn.net`, `172.160.0.1`). A hostname made of `172.`, a
decimal number and any further text that does not begin with a digit is treated like
the number alone: the URL is rejected exactly when the number lies in `[16, 31]`. -/
theorem isValidCallbackURL_172_leading_number :
    (∀ (urlParse : String → Option URL) (callbackURL : String) (u : URL),
      urlParse callbackURL = some u →
      (u.Scheme = "http" ∨ u.Scheme = "https") →
      HasPrefix u.Hostname "172." = true →
      (∀ n : Nat, leadingNumber ((Split u.Hostname '.').getD 1 "").data = some n →
        ¬ (16 ≤ n ∧ n ≤ 31)) →
      isValidCallbackURL urlParse callbackURL = true)
    ∧ (∀ (urlParse : String → Option URL) (callbackURL : String) (u : URL) (n : Nat)
        (text : String),
      urlParse callbackURL = some u →
      (u.Scheme = "http" ∨ u.Scheme = "https") →
      u.Hostname = "172." ++ toString n ++ text →
      (∀ c : Char, text.data.head? = some c → c.isDigit = false) →
      (isValidCallbackURL urlParse callbackURL = false ↔ 16 ≤ n ∧ n ≤ 31))
    ∧ isValidCallbackURL urlParseSample "http://172.example.com/hook" = true
    ∧ isValidCallbackURL urlParseSample "http://172.15abc.example.com/hook" = true
    ∧ isValidCallbackURL urlParseSample "http://172.32x.cdn.net/hook" = true
    ∧ isValidCallbackURL urlParseSample "http://172.160.0.1/hook" = true := by
  refine ⟨?_, ?_, by decide, by decide, by decide, by decide⟩
  · intro urlParse callbackURL u hu hs hp hlead
    obtain ⟨body, hbody⟩ := HasPrefix_172 _ hp
    rw [isValidCallbackURL_172 urlParse callbackURL u body hu hs hbody]
    rw [hbody, Split_172_second] at hlead
    cases hscan : Sscanf_d (String.mk (body.takeWhile (fun c => decide (c ≠ '.')))) with
    | none => rfl
    | some second =>
      by_cases hr : 16 ≤ second ∧ second ≤ 31
      · obtain ⟨n, hn, hv⟩ := leadingNumber_of_Sscanf_d _ second hscan hr.1 hr.2
        exact absurd (show 16 ≤ n ∧ n ≤ 31 by omega) (hlead n hn)
      · simp [hr]
  · intro urlParse callbackURL u n text hu hs hh htext
    have hden := repr_denotes n
    have hbody : u.Hostname =
        String.mk ('1' :: '7' :: '2' :: '.' :: ((toString n).data ++ text.data)) := by
      rw [hh]
      apply String.ext
      simp
    have htw : ((toString n).data ++ text.data).takeWhile (fun c => decide (c ≠ '.'))
        = (toString n).data ++ text.data.takeWhile (fun c => decide (c ≠ '.')) := by
      apply List.takeWhile_append_of_pos
      intro c hc
      have hd := hden.2.1 c hc
      have : c ≠ '.' := by rintro rfl; exact absurd hd (by decide)
      simp [this]
    have hscan := Sscanf_d_denotes (toString n).data
      (text.data.takeWhile (fun c => decide (c ≠ '.'))) n hden
      (fun c hc => htext c (head?_takeWhile _ _ _ hc))
    rw [isValidCallbackURL_172 urlParse callbackURL u _ hu hs hbody, htw, hscan]
    by_cases hlt : n < 2 ^ 63
    · rw [if_pos hlt]
      simp only [decide_eq_false_iff_not, not_not]
      omega
    · rw [if_neg hlt]
      simp only [Bool.true_eq_false, false_iff]
      omega

/-- Witness for the amended claim C21: `http://172.example.com/hook`, whose second segment
`example` starts with no number, is accepted. -/
theorem isValidCallbackURL_172_leading_number_witness :
    isValidCallbackURL urlParseSample "http://172.example.com/hook" = true :=
  isValidCallbackURL_172_leading_number.1 urlParseSample "http://172.example.com/hook"
    ⟨"http", "172.example.com"⟩ (by decide) (by decide) (by decide)
    (fun n h =>
      have hnone : leadingNumber ((Split "172.example.com" '.').getD 1 "").data = none := by
        decide
      absurd (hnone.symm.trans h) (by simp))

end NewApi
